import Mathlib

/-!
Verification of the maze-chase game in `gogogo.py`.

The development shallowly embeds the algorithmic core of the program:

* `TerrainMazeGenerator` : the maze grid, recursive-backtracking carving
  (`generate_random_maze` / `_carve_path`), the spawn queries
  (`find_spawn_point`, `find_goal_point`, `find_monster_spawn_point`) and the
  mesh builder (`_create_mesh_from_grid`);
* the `Monster` per-tick AI (`Monster.update`, `_start_attack_windup`,
  `_execute_attack`, `_chase_player`, `_patrol`);
* the `Player` health/invulnerability logic (`Player.take_damage`,
  `Player.update`);
* the `Game` state machine (`set_game_state`, `start_game`, `restart_game`,
  button and escape handlers).

The Python global `random` calls are modelled by explicit streams passed as
parameters: `random.shuffle` of the direction list becomes a stream
`σ : Nat → List (Int × Int)` of (assumed) permutations of the direction list,
consumed one entry per `_carve_path` invocation, and the `random.randint`
samples of the monster-spawn search become a stream `ρ : Nat → Cell`.
The recursion of `_carve_path` is driven by an explicit fuel argument so that
all definitions are structurally recursive and executable; the fuel passed by
`generate_random_maze` is proven sufficient (`carveDirs_fuel_irrel`), so the
out-of-fuel branch is unreachable and the embedding computes exactly the
recursive function of the source.
-/

namespace Gogogo

/-! ### Grid data model

The Python grid is `maze_grid[y][x]` with `0 = path`, `1 = wall`, a
`dimension × dimension` list of lists initialised to all walls.  We model it
as a total function `Cell → Nat` that is `1` outside the carved region; the
source never reads outside `[0, dimension)` (all accesses are bounds-checked),
so the totalisation is conservative. -/

abbrev Cell := Int × Int

abbrev Grid := Cell → Nat

/-- All-walls grid: `[[1 for _ in range(dim)] for _ in range(dim)]`. -/
def initGrid : Grid := fun _ => 1

/-- Writing one grid cell (`self.maze_grid[cy][cx] = v`). -/
def setCell (g : Grid) (c : Cell) (v : Nat) : Grid := Function.update g c v

/-- The cell rectangle `[0, D) × [0, D)` of a `D × D` grid. -/
def cells (D : Int) : Finset Cell := Finset.Ico 0 D ×ˢ Finset.Ico 0 D

/-- Number of path (`0`) cells of the grid. -/
def pathCount (D : Int) (g : Grid) : Nat :=
  ((cells D).filter (fun c => g c = 0)).card

/-- Number of wall (`1`) cells of the grid. -/
def wallCount (D : Int) (g : Grid) : Nat :=
  ((cells D).filter (fun c => g c = 1)).card

/-- Horizontally adjacent path–path pairs, identified by their left cell. -/
def pairsH (D : Int) (g : Grid) : Nat :=
  ((cells D).filter (fun c => g c = 0 ∧ g (c.1 + 1, c.2) = 0)).card

/-- Vertically adjacent path–path pairs, identified by their lower cell. -/
def pairsV (D : Int) (g : Grid) : Nat :=
  ((cells D).filter (fun c => g c = 0 ∧ g (c.1, c.2 + 1) = 0)).card

/-- Number of (unordered) orthogonally adjacent path–path pairs of the grid. -/
def pairs (D : Int) (g : Grid) : Nat := pairsH D g + pairsV D g

/-- Orthogonal adjacency of two cells (unit Manhattan distance). -/
def Adj (a b : Cell) : Prop :=
  (a.1 - b.1).natAbs + (a.2 - b.2).natAbs = 1

instance (a b : Cell) : Decidable (Adj a b) := by unfold Adj; infer_instance

/-- Reachability from `s` through path cells of `g`, stepping only between
orthogonally adjacent cells whose target is a path cell. -/
def Reach (g : Grid) (s c : Cell) : Prop :=
  Relation.ReflTransGen (fun a b => Adj a b ∧ g b = 0) s c

/-- The direction list `[(0, 1), (1, 0), (0, -1), (-1, 0)]` of `_carve_path`. -/
def baseDirs : List (Int × Int) := [(0, 1), (1, 0), (0, -1), (-1, 0)]

/-- A model of the global `random.shuffle`: the `n`-th shuffle performed
during a maze generation returns `σ n`, a permutation of `baseDirs`. -/
def ValidShuffles (σ : Nat → List (Int × Int)) : Prop :=
  ∀ n, (σ n).Perm baseDirs

/-- The carving guard of `_carve_path`:
`0 < nx < dimension - 1 and 0 < ny < dimension - 1 and maze_grid[ny][nx] == 1`
with `nx, ny = cx + dx*2, cy + dy*2`. -/
abbrev okMove (D : Int) (g : Grid) (cx cy dx dy : Int) : Prop :=
  0 < cx + dx * 2 ∧ cx + dx * 2 < D - 1 ∧ 0 < cy + dy * 2 ∧ cy + dy * 2 < D - 1 ∧
    g (cx + dx * 2, cy + dy * 2) = 1

/-- The direction loop of `_carve_path`, with the recursive call inlined:
carving into `(nx, ny)` first opens the intermediate cell, then marks
`(nx, ny)` as path (the first statement of the recursive `_carve_path` call)
and processes the shuffled direction list of that cell before resuming the
remaining directions of the current cell.  `ctr` indexes the shuffle stream; the
fuel argument only bounds the recursion depth and is never exhausted for the
fuel supplied by `generate_random_maze` (see `carveDirs_fuel_irrel`). -/
def carveDirs (D : Int) (σ : Nat → List (Int × Int)) :
    Nat → Grid → Nat → Int → Int → List (Int × Int) → Grid × Nat
  | 0, g, ctr, _, _, _ => (g, ctr)
  | _ + 1, g, ctr, _, _, [] => (g, ctr)
  | fuel + 1, g, ctr, cx, cy, (dx, dy) :: ds =>
    if okMove D g cx cy dx dy then
      let g2 := setCell g (cx + dx, cy + dy) 0
      let g3 := setCell g2 (cx + dx * 2, cy + dy * 2) 0
      let r1 := carveDirs D σ fuel g3 (ctr + 1) (cx + dx * 2) (cy + dy * 2) (σ ctr)
      carveDirs D σ fuel r1.1 r1.2 cx cy ds
    else
      carveDirs D σ fuel g ctr cx cy ds

/-- Fuel that `generate_random_maze` hands to the carver; sufficient by
`carveDirs_fuel_irrel` (the recursion makes at most `5·wallCount + |dirs|`
nested calls). -/
def mazeFuel (D : Int) : Nat := 5 * (D.toNat * D.toNat) + 5

/-- `_carve_path(cx, cy)`: mark the current cell as path, shuffle the
direction list (modelled by consuming `σ ctr`), and process the directions. -/
def carve_path (D : Int) (σ : Nat → List (Int × Int)) (g : Grid) (ctr : Nat)
    (cx cy : Int) : Grid × Nat :=
  let g1 := setCell g (cx, cy) 0
  carveDirs D σ (mazeFuel D) g1 (ctr + 1) cx cy (σ ctr)

/-- `generate_random_maze`: all-walls grid, then carve from the random start
`(randrange(D//2)*2+1, randrange(D//2)*2+1)`; `a` and `b` are the two
`randrange(D//2)` samples. -/
def generate_random_maze (D : Int) (σ : Nat → List (Int × Int)) (a b : Int) :
    Grid :=
  (carve_path D σ initGrid 0 (a * 2 + 1) (b * 2 + 1)).1

/-- Pointwise relation between a carved grid and the grid it was carved from:
carving only ever turns cells into path. -/
def Subgrid (g' g : Grid) : Prop := ∀ c, g' c = g c ∨ g' c = 0

/-! ### Maze invariant

`MazeInv` is the inductive invariant of the carver: path cells live strictly
inside the border and have at least one odd coordinate; every path cell with
exactly one odd coordinate is a carved corridor cell whose two neighbours
along its even axis are path; every path cell is reachable from the carving
start; and the path cells form a tree (adjacent-pair count is one less than
the path-cell count). -/

def GoodCoords (D : Int) (g : Grid) : Prop :=
  ∀ c : Cell, g c = 0 →
    1 ≤ c.1 ∧ c.1 ≤ D - 2 ∧ 1 ≤ c.2 ∧ c.2 ≤ D - 2 ∧
      (c.1 % 2 = 1 ∨ c.2 % 2 = 1)

def MidLinked (g : Grid) : Prop :=
  ∀ c : Cell, g c = 0 →
    (c.1 % 2 = 0 → c.2 % 2 = 1 → g (c.1 - 1, c.2) = 0 ∧ g (c.1 + 1, c.2) = 0) ∧
    (c.1 % 2 = 1 → c.2 % 2 = 0 → g (c.1, c.2 - 1) = 0 ∧ g (c.1, c.2 + 1) = 0)

structure MazeInv (D : Int) (s : Cell) (g : Grid) : Prop where
  good : GoodCoords D g
  mid : MidLinked g
  conn : ∀ c, g c = 0 → Reach g s c
  tree : pairs D g + 1 = pathCount D g

/-! ### Spawn queries (`_is_valid_grid_pos`, `find_spawn_point`,
`find_goal_point`, `find_monster_spawn_point`) -/

/-- `_is_valid_grid_pos`: inside the grid bounds and a path cell. -/
abbrev is_valid_grid_pos (D : Int) (g : Grid) (c : Cell) : Prop :=
  0 ≤ c.1 ∧ c.1 < D ∧ 0 ≤ c.2 ∧ c.2 < D ∧ g c = 0

/-- The interior scan order of `find_spawn_point`: `z` from `1` to `D-2`
(outer loop), `x` from `1` to `D-2` (inner loop), producing `(x, z)` cells. -/
def interiorScan (D : Int) : List Cell :=
  (List.range (D - 2).toNat).flatMap fun (zi : Nat) =>
    (List.range (D - 2).toNat).map fun (xi : Nat) =>
      ((xi : Int) + 1, (zi : Int) + 1)

/-- The reversed scan order of `find_goal_point`: `z` from `D-2` down to `1`,
`x` from `D-2` down to `1`. -/
def interiorScanRev (D : Int) : List Cell :=
  (List.range (D - 2).toNat).flatMap fun (zi : Nat) =>
    (List.range (D - 2).toNat).map fun (xi : Nat) =>
      (D - 2 - (xi : Int), D - 2 - (zi : Int))

/-- `find_spawn_point`: first valid interior cell in scan order, with fallback
`(1, 1)`. -/
def find_spawn_point (D : Int) (g : Grid) : Cell :=
  ((interiorScan D).find? fun c => decide (is_valid_grid_pos D g c)).getD (1, 1)

/-- `find_goal_point`: first valid interior cell in the reversed scan order,
with fallback `(dimension - 2, dimension - 2)`. -/
def find_goal_point (D : Int) (g : Grid) : Cell :=
  ((interiorScanRev D).find? fun c => decide (is_valid_grid_pos D g c)).getD
    (D - 2, D - 2)

/-- Manhattan distance between grid cells, as in
`abs(x - px) + abs(y - py)`. -/
def mdist (c d : Cell) : Int := |c.1 - d.1| + |c.2 - d.2|

/-- The acceptance test of the monster-spawn search: a valid path cell whose
Manhattan distances to the player spawn and to the goal both exceed
`dimension / 4` (Python true division; exact for division by 4, so the float
comparison coincides with the rational one). -/
abbrev monsterSpawnOk (D : Int) (g : Grid) (c : Cell) : Prop :=
  is_valid_grid_pos D g c ∧
    (D : ℚ) / 4 < (mdist c (find_spawn_point D g) : ℚ) ∧
    (D : ℚ) / 4 < (mdist c (find_goal_point D g) : ℚ)

/-- The `while attempts < 100` loop of `find_monster_spawn_point`; `fuel`
counts the remaining attempts, `n` the next index into the sample stream. -/
def monsterSpawnLoop (D : Int) (g : Grid) (ρ : Nat → Cell) :
    Nat → Nat → Cell
  | 0, _ => (D / 2, D / 2)
  | fuel + 1, n =>
    if monsterSpawnOk D g (ρ n) then ρ n
    else monsterSpawnLoop D g ρ fuel (n + 1)

/-- `find_monster_spawn_point`: up to 100 samples from the stream `ρ`
(modelling the pairs of `random.randint(1, dimension - 2)` draws), falling
back to the grid centre `(dimension // 2, dimension // 2)`. -/
def find_monster_spawn_point (D : Int) (g : Grid) (ρ : Nat → Cell) : Cell :=
  monsterSpawnLoop D g ρ 100 0

/-- The maze dimension of `GameConfig`: `MAZE_DIMENSION = 20`, incremented at
the end of `__init__` when even. -/
def MAZE_DIMENSION_configured : Int := 20

def MAZE_DIMENSION : Int :=
  if MAZE_DIMENSION_configured % 2 = 0 then MAZE_DIMENSION_configured + 1
  else MAZE_DIMENSION_configured

/-! ### Mesh builder (`_create_mesh_from_grid`)

Geometry is over `ℚ` (the float arithmetic of the source involves only
additions, multiplications and a division by 2).  Vertex colours are
modelled by a flag recording whether the cell colour was the wall colour. -/

abbrev Vec3r := ℚ × ℚ × ℚ

structure MeshCfg where
  cellSize : ℚ
  wallHeight : ℚ
  pathHeight : ℚ
deriving DecidableEq

/-- One quad of the mesh: the four vertices in the order they are appended to
the vertex list, and the cell-colour flag replicated for them. -/
structure Face where
  verts : List Vec3r
  colorIsWall : Bool
deriving DecidableEq

/-- `(idx - dimension / 2) * cell_size` (Python true division). -/
def baseCoord (P : MeshCfg) (D : Int) (i : Int) : ℚ :=
  ((i : ℚ) - (D : ℚ) / 2) * P.cellSize

/-- `wall_height if is_wall else path_height`. -/
def cellHeight (P : MeshCfg) (g : Grid) (x z : Int) : ℚ :=
  if g (x, z) = 1 then P.wallHeight else P.pathHeight

/-- Top quad of a cell: `[v_bl, v_br, v_tr, v_tl]`. -/
def topFace (P : MeshCfg) (D : Int) (g : Grid) (x z : Int) : Face :=
  let bx := baseCoord P D x
  let bz := baseCoord P D z
  let h := cellHeight P g x z
  let cs := P.cellSize
  ⟨[(bx, h, bz), (bx + cs, h, bz), (bx + cs, h, bz + cs), (bx, h, bz + cs)],
    decide (g (x, z) = 1)⟩

/-- North (+z) side quads: emitted when on the top edge or the cell above is
path, and the current cell is a wall; vertex order `[n_bl, n_br, n_tr, n_tl]`. -/
def northFaces (P : MeshCfg) (D : Int) (g : Grid) (x z : Int) : List Face :=
  if z = D - 1 ∨ (z + 1 < D ∧ g (x, z + 1) = 0) then
    if g (x, z) = 1 then
      let bx := baseCoord P D x
      let bz := baseCoord P D z
      let h := cellHeight P g x z
      let cs := P.cellSize
      let ph := P.pathHeight
      [⟨[(bx, ph, bz + cs), (bx + cs, ph, bz + cs), (bx + cs, h, bz + cs),
          (bx, h, bz + cs)], decide (g (x, z) = 1)⟩]
    else []
  else []

/-- South (−z) side quads; appended in the order `[v_s_br, v_s_bl, v_s_tl,
v_s_tr]` of the source. -/
def southFaces (P : MeshCfg) (D : Int) (g : Grid) (x z : Int) : List Face :=
  if z = 0 ∨ (0 ≤ z - 1 ∧ g (x, z - 1) = 0) then
    if g (x, z) = 1 then
      let bx := baseCoord P D x
      let bz := baseCoord P D z
      let h := cellHeight P g x z
      let cs := P.cellSize
      let ph := P.pathHeight
      [⟨[(bx + cs, ph, bz), (bx, ph, bz), (bx, h, bz), (bx + cs, h, bz)],
          decide (g (x, z) = 1)⟩]
    else []
  else []

/-- East (+x) side quads; vertex order `[e_bl, e_br, e_tr, e_tl]`. -/
def eastFaces (P : MeshCfg) (D : Int) (g : Grid) (x z : Int) : List Face :=
  if x = D - 1 ∨ (x + 1 < D ∧ g (x + 1, z) = 0) then
    if g (x, z) = 1 then
      let bx := baseCoord P D x
      let bz := baseCoord P D z
      let h := cellHeight P g x z
      let cs := P.cellSize
      let ph := P.pathHeight
      [⟨[(bx + cs, ph, bz), (bx + cs, ph, bz + cs), (bx + cs, h, bz + cs),
          (bx + cs, h, bz)], decide (g (x, z) = 1)⟩]
    else []
  else []

/-- West (−x) side quads; appended in the order `[v_w_br, v_w_bl, v_w_tl,
v_w_tr]` of the source. -/
def westFaces (P : MeshCfg) (D : Int) (g : Grid) (x z : Int) : List Face :=
  if x = 0 ∨ (0 ≤ x - 1 ∧ g (x - 1, z) = 0) then
    if g (x, z) = 1 then
      let bx := baseCoord P D x
      let bz := baseCoord P D z
      let h := cellHeight P g x z
      let cs := P.cellSize
      let ph := P.pathHeight
      [⟨[(bx, ph, bz + cs), (bx, ph, bz), (bx, h, bz), (bx, h, bz + cs)],
          decide (g (x, z) = 1)⟩]
    else []
  else []

/-- All quads a single cell contributes, in emission order: the top quad,
then the conditional north, south, east and west side quads. -/
def cellFaces (P : MeshCfg) (D : Int) (g : Grid) (x z : Int) : List Face :=
  topFace P D g x z ::
    (northFaces P D g x z ++ southFaces P D g x z ++ eastFaces P D g x z ++
      westFaces P D g x z)

structure MeshData where
  vertices : List Vec3r
  triangles : List Nat
  colors : List Bool
  uvs : List (ℚ × ℚ)
deriving DecidableEq

def emptyMesh : MeshData := ⟨[], [], [], []⟩

/-- Appending one quad to the accumulated mesh: four vertices, four colour
entries, four uvs and two triangles over the fresh vertex indices
(`current_vert_start_idx = len(vertices)`). -/
def appendFace (m : MeshData) (f : Face) : MeshData :=
  let s := m.vertices.length
  { vertices := m.vertices ++ f.verts
    triangles := m.triangles ++ [s, s + 1, s + 2, s, s + 2, s + 3]
    colors := m.colors ++ List.replicate 4 f.colorIsWall
    uvs := m.uvs ++ [(0, 0), (1, 0), (1, 1), (0, 1)] }

/-- Cell iteration order of the builder: `z_idx` outer, `x_idx` inner. -/
def gridScan (D : Int) : List (Int × Int) :=
  (List.range D.toNat).flatMap fun (zi : Nat) =>
    (List.range D.toNat).map fun (xi : Nat) => ((xi : Int), (zi : Int))

/-- `_create_mesh_from_grid`: fold the per-cell quads over the scan order. -/
def create_mesh_from_grid (P : MeshCfg) (D : Int) (g : Grid) : MeshData :=
  (gridScan D).foldl
    (fun m c => (cellFaces P D g c.1 c.2).foldl appendFace m) emptyMesh

/-! ### Game state and player health

`GState` is the `GameState` enum.  The player model keeps the health and
invulnerability fields of `Player`; time deltas are rationals.  The
presentational fields (blinking visibility, UI updates, sounds) are outside
the model. -/

inductive GState where
  | MENU | PLAYING | PAUSED | WIN | LOSE
deriving DecidableEq

structure PlayerCfg where
  maxHealth : Int
  invulnerabilityTime : ℚ
deriving DecidableEq

structure PlayerM where
  current_health : Int
  is_invulnerable : Bool
  invulnerability_timer : ℚ
deriving DecidableEq

/-- `Player.take_damage`: ignored while invulnerable; otherwise decrement
health and either trigger the lose transition (health ≤ 0, the returned flag)
or start the invulnerability window. -/
def take_damage (cfg : PlayerCfg) (p : PlayerM) (amount : Int) :
    PlayerM × Bool :=
  if p.is_invulnerable then (p, false)
  else
    let h := p.current_health - amount
    if h ≤ 0 then ({ p with current_health := h }, true)
    else
      ({ p with current_health := h, is_invulnerable := true,
                invulnerability_timer := cfg.invulnerabilityTime }, false)

/-- The invulnerability part of `Player.update`: tick the timer down and end
invulnerability once it reaches zero. -/
def player_update (p : PlayerM) (dt : ℚ) : PlayerM :=
  if p.is_invulnerable then
    let t := p.invulnerability_timer - dt
    if t ≤ 0 then { p with invulnerability_timer := t, is_invulnerable := false }
    else { p with invulnerability_timer := t }
  else p

/-! ### Monster AI

Vectors are rational triples.  Engine operations without rational closed
forms are abstracted into parameters: `normF` models `Vec3.normalized()`
(also used by `look_at`, which we model as storing the normalised direction
to the look target in `forward`), and `sinF` models `math.sin`.  `distance(a,
b) < r` comparisons are modelled as `dist2 a b < r^2`, equivalent for the
non-negative ranges of the source since squaring is monotone on `[0, ∞)`.
The player argument is `some p` exactly when `game.player` exists and is
enabled (`game.player and game.player.enabled`). -/

structure V3 where
  x : ℚ
  y : ℚ
  z : ℚ
deriving DecidableEq

def vadd (a b : V3) : V3 := ⟨a.x + b.x, a.y + b.y, a.z + b.z⟩

def vsub (a b : V3) : V3 := ⟨a.x - b.x, a.y - b.y, a.z - b.z⟩

def vscale (c : ℚ) (a : V3) : V3 := ⟨c * a.x, c * a.y, c * a.z⟩

/-- Squared Euclidean distance. -/
def dist2 (a b : V3) : ℚ :=
  (a.x - b.x) ^ 2 + (a.y - b.y) ^ 2 + (a.z - b.z) ^ 2

inductive PatrolType where
  | linear | sine
deriving DecidableEq

structure MonsterCfg where
  speed : ℚ
  visionRange : ℚ
  patrolType : PatrolType
  patrolAmplitude : ℚ
  patrolFrequency : ℚ
  attackCooldown : ℚ
  windupTime : ℚ
  projectileSpeed : ℚ
  projectileLifetime : ℚ
  scaleX : ℚ
  projectileScaleY : ℚ
  pathHeight : ℚ
deriving DecidableEq

structure ProjectileM where
  position : V3
  direction : V3
  speed : ℚ
  timer : ℚ
deriving DecidableEq

/-- `MonsterProjectile.__init__`: normalises the handed direction and floats
the projectile above the ground. -/
def projectile_init (cfg : MonsterCfg) (normF : V3 → V3)
    (start_pos target_dir : V3) : ProjectileM :=
  { position := { start_pos with
      y := cfg.pathHeight + cfg.projectileScaleY / 2 }
    direction := normF target_dir
    speed := cfg.projectileSpeed
    timer := cfg.projectileLifetime }

structure MonsterM where
  position : V3
  forward : V3
  start_position : V3
  patrol_start_x : ℚ
  current_patrol_time : ℚ
  target_position : Option V3
  attack_cooldown_timer : ℚ
  attack_windup_timer : ℚ
  is_winding_up_attack : Bool
  target_for_attack : Option V3
  attack_cue : Bool
deriving DecidableEq

/-- `_start_attack_windup`: raise the windup flag, arm the windup timer, and
capture the target — the player position when available, else
`self.forward * 10`. -/
def start_attack_windup (cfg : MonsterCfg) (player : Option V3)
    (m : MonsterM) : MonsterM :=
  { m with is_winding_up_attack := true
           attack_windup_timer := cfg.windupTime
           target_for_attack :=
             some (match player with
                   | some p => p
                   | none => vscale 10 m.forward) }

/-- `_execute_attack`: when a target is stored, spawn one projectile aimed
from the monster at the stored target, from a point just in front of the
monster; then clear the target. -/
def execute_attack (cfg : MonsterCfg) (normF : V3 → V3) (m : MonsterM) :
    MonsterM × List ProjectileM :=
  match m.target_for_attack with
  | some t =>
    let dir := normF (vsub t m.position)
    let spawnPos := vadd m.position (vscale (cfg.scaleX / 2 + 1 / 10) m.forward)
    ({ m with target_for_attack := none },
      [projectile_init cfg normF spawnPos dir])
  | none => ({ m with target_for_attack := none }, [])

/-- `_chase_player`: move toward the current player position projected onto
the horizontal plane, and face the movement direction. -/
def chase_player (cfg : MonsterCfg) (normF : V3 → V3) (p : V3) (dt : ℚ)
    (m : MonsterM) : MonsterM :=
  let d0 := normF (vsub p m.position)
  let d : V3 := { d0 with y := 0 }
  let pos := vadd m.position (vscale (cfg.speed * dt) d)
  { m with position := pos, forward := normF (vsub (vadd pos d) pos) }

/-- `_patrol`: linear ping-pong or sine-wave patrol, per configuration. -/
def patrol (cfg : MonsterCfg) (normF : V3 → V3) (sinF : ℚ → ℚ) (dt : ℚ)
    (m : MonsterM) : MonsterM :=
  match cfg.patrolType with
  | .linear =>
    let ta : V3 := ⟨m.patrol_start_x, m.position.y, m.start_position.z⟩
    let tb : V3 :=
      ⟨m.patrol_start_x + cfg.patrolAmplitude, m.position.y,
        m.start_position.z⟩
    let tgt : Option V3 :=
      if m.target_position = none ∨
          (∃ t, m.target_position = some t ∧ dist2 m.position t < (1 / 10) ^ 2)
      then (if m.target_position = some ta then some tb else some ta)
      else m.target_position
    match tgt with
    | some t =>
      let d := normF (vsub t m.position)
      let pos := vadd m.position (vscale (cfg.speed * dt) d)
      { m with target_position := tgt, position := pos,
               forward := normF (vsub (vadd pos d) pos) }
    | none => { m with target_position := tgt }
  | .sine =>
    let t := m.current_patrol_time + dt * cfg.patrolFrequency
    let newX := m.patrol_start_x + sinF t * cfg.patrolAmplitude
    let oldX := m.position.x
    let pos : V3 := ⟨newX, m.position.y, m.start_position.z⟩
    let fwd :=
      if oldX < newX then normF (vsub (vadd pos ⟨1, 0, 0⟩) pos)
      else normF (vsub (vadd pos ⟨-1, 0, 0⟩) pos)
    { m with current_patrol_time := t, position := pos, forward := fwd }

/-- `Monster.update`: one AI tick.  Returns the updated monster and the list
of projectiles spawned during the tick. -/
def monster_update (cfg : MonsterCfg) (normF : V3 → V3) (sinF : ℚ → ℚ)
    (gs : GState) (player : Option V3) (dt : ℚ) (m : MonsterM) :
    MonsterM × List ProjectileM :=
  if gs ≠ GState.PLAYING then (m, [])
  else if m.is_winding_up_attack then
    let t := m.attack_windup_timer - dt
    if t ≤ 0 then
      let fired := execute_attack cfg normF { m with attack_windup_timer := t }
      ({ fired.1 with is_winding_up_attack := false
                      attack_cooldown_timer := cfg.attackCooldown
                      attack_cue := false }, fired.2)
    else
      match player with
      | some p =>
        ({ m with attack_windup_timer := t,
                  forward := normF (vsub p m.position) }, [])
      | none => ({ m with attack_windup_timer := t }, [])
  else
    let cd := m.attack_cooldown_timer - dt
    let m1 := { m with attack_cooldown_timer := cd }
    match player with
    | some p =>
      if dist2 m.position p < cfg.visionRange ^ 2 then
        if cd ≤ 0 then
          (start_attack_windup cfg (some p) { m1 with attack_cue := true }, [])
        else (chase_player cfg normF p dt m1, [])
      else (patrol cfg normF sinF dt m1, [])
    | none => (patrol cfg normF sinF dt m1, [])

/-! ### Game orchestration (`Game`)

`GameSt` keeps the orchestration-relevant state: the current `GameState`,
the maze (plus a counter of `generate_random_maze` invocations, so that
regeneration is observable in the model), the three derived spawn cells, the
player health, and the enabled flags of the three gameplay entities.  The
per-generation randomness is a stream `env : Nat → GenEnv`; generation `n`
uses `env n`.  UI visibility, cameras, sounds and projectile destruction are
presentational and outside the model. -/

structure GenEnv where
  shuffles : Nat → List (Int × Int)
  startA : Int
  startB : Int
  monsterSamples : Nat → Cell

structure GameSt where
  current_state : GState
  gen_count : Nat
  maze : Option Grid
  player_spawn : Option Cell
  goal_spawn : Option Cell
  monster_spawn : Option Cell
  player_health : Int
  player_enabled : Bool
  goal_enabled : Bool
  monster_enabled : Bool

/-- The initial `Game.__init__` state (before `set_game_state(MENU)`, which
is a no-op there since the state already is `MENU`). -/
def initGame : GameSt :=
  { current_state := .MENU, gen_count := 0, maze := none,
    player_spawn := none, goal_spawn := none, monster_spawn := none,
    player_health := 0, player_enabled := false, goal_enabled := false,
    monster_enabled := false }

/-- `Game.set_game_state`: no-op when the target equals the current state;
otherwise switch and apply the per-state entity/maze effects
(`_activate_gameplay_entities`, `_deactivate_gameplay_entities`,
`_unload_game_entities`). -/
def set_game_state (s : GameSt) (ns : GState) : GameSt :=
  if s.current_state = ns then s
  else
    let s1 := { s with current_state := ns }
    match ns with
    | .MENU =>
      { s1 with player_enabled := false, goal_enabled := false,
                monster_enabled := false, maze := none,
                player_spawn := none, goal_spawn := none,
                monster_spawn := none }
    | .PLAYING =>
      { s1 with player_enabled := true, goal_enabled := true,
                monster_enabled := true }
    | .PAUSED =>
      { s1 with goal_enabled := false, monster_enabled := false }
    | .WIN =>
      { s1 with player_enabled := false, goal_enabled := false,
                monster_enabled := false }
    | .LOSE =>
      { s1 with player_enabled := false, goal_enabled := false,
                monster_enabled := false }

/-- `Game.start_game`: regenerate the maze with the randomness of the next generation, re-derive the three spawn points, create or reset the entities
(full health, enabled), then transition to `PLAYING`. -/
def start_game (D : Int) (maxHealth : Int) (env : Nat → GenEnv)
    (s : GameSt) : GameSt :=
  let e := env s.gen_count
  let g := generate_random_maze D e.shuffles e.startA e.startB
  let s1 :=
    { s with gen_count := s.gen_count + 1
             maze := some g
             player_spawn := some (find_spawn_point D g)
             goal_spawn := some (find_goal_point D g)
             monster_spawn := some (find_monster_spawn_point D g e.monsterSamples)
             player_health := maxHealth
             player_enabled := true, goal_enabled := true,
             monster_enabled := true }
  set_game_state s1 .PLAYING

/-- `Game.restart_game` simply calls `start_game`. -/
def restart_game (D : Int) (maxHealth : Int) (env : Nat → GenEnv)
    (s : GameSt) : GameSt :=
  start_game D maxHealth env s

/-- `Game.go_to_main_menu`. -/
def go_to_main_menu (s : GameSt) : GameSt := set_game_state s .MENU

/-- `Game._handle_global_input` for the escape key. -/
def handle_escape (s : GameSt) : GameSt :=
  match s.current_state with
  | .PLAYING => set_game_state s .PAUSED
  | .PAUSED => set_game_state s .PLAYING
  | .WIN => set_game_state s .MENU
  | .LOSE => set_game_state s .MENU
  | .MENU => s

/-- The external events that drive state transitions: the four UI buttons
wired in `_setup_ui_callbacks`, the resume button (a direct
`set_game_state(PLAYING)` lambda), and the escape key. -/
inductive GEvent where
  | startClick | restartClick | resumeClick | backToMenuClick
  | pauseToMenuClick | escapeKey
deriving DecidableEq

/-- One externally triggered transition of the game state machine. -/
def step (D : Int) (maxHealth : Int) (env : Nat → GenEnv) (e : GEvent)
    (s : GameSt) : GameSt :=
  match e with
  | .startClick => start_game D maxHealth env s
  | .restartClick => restart_game D maxHealth env s
  | .resumeClick => set_game_state s .PLAYING
  | .backToMenuClick => go_to_main_menu s
  | .pauseToMenuClick => go_to_main_menu s
  | .escapeKey => handle_escape s

/-! ### Concrete instances used to evaluate the model on sample inputs -/

/-- The identity shuffle stream (a valid `random.shuffle` outcome). -/
def sigma0 : Nat → List (Int × Int) := fun _ => baseDirs

/-- A constant monster-sample stream inside the interior of a 5×5 grid. -/
def rho0 : Nat → Cell := fun _ => (1, 1)

/-- A sample 5×5 grid with path cells `(1,1)` and `(3,3)`. -/
def gridW : Grid := setCell (setCell initGrid (1, 1) 0) (3, 3) 0

/-- A generation environment for 3×3 mazes with deterministic streams. -/
def envW : Nat → GenEnv :=
  fun _ => ⟨sigma0, 0, 0, fun _ => (0, 0)⟩

/-- Identity stand-in for the abstract `normalized()` parameter. -/
def idV : V3 → V3 := fun v => v

/-- Zero stand-in for the abstract `math.sin` parameter. -/
def zeroSin : ℚ → ℚ := fun _ => 0

/-- Monster configuration with the numeric values of `GameConfig`. -/
def cfgMW : MonsterCfg :=
  { speed := 5 / 2, visionRange := 10, patrolType := .sine,
    patrolAmplitude := 8, patrolFrequency := 1, attackCooldown := 3,
    windupTime := 1, projectileSpeed := 15, projectileLifetime := 2,
    scaleX := 6 / 5, projectileScaleY := 1 / 2, pathHeight := 0 }

/-- Player configuration with the numeric values of `GameConfig`. -/
def cfgPW : PlayerCfg := { maxHealth := 3, invulnerabilityTime := 1 }

/-- A monster at rest, facing `+x`. -/
def monsterBase : MonsterM :=
  { position := ⟨0, 0, 0⟩, forward := ⟨1, 0, 0⟩, start_position := ⟨0, 0, 0⟩,
    patrol_start_x := 0, current_patrol_time := 0, target_position := none,
    attack_cooldown_timer := 0, attack_windup_timer := 0,
    is_winding_up_attack := false, target_for_attack := none,
    attack_cue := false }

/-- A monster mid-windup with stored target `(1, 0, 0)`. -/
def monsterWindup : MonsterM :=
  { monsterBase with attack_windup_timer := 1, is_winding_up_attack := true,
                     target_for_attack := some ⟨1, 0, 0⟩, attack_cue := true }

/-- A monster away from the origin, facing `+x`. -/
def monsterOff : MonsterM :=
  { monsterBase with position := ⟨5, 0, 5⟩ }

/-- Mesh parameters with the numeric values of `GameConfig`. -/
def meshCfgW : MeshCfg := { cellSize := 1, wallHeight := 1, pathHeight := 0 }

/-- A player at full health. -/
def playerW : PlayerM :=
  { current_health := 3, is_invulnerable := false, invulnerability_timer := 0 }

/-- A player inside an invulnerability window. -/
def playerInv : PlayerM :=
  { current_health := 2, is_invulnerable := true, invulnerability_timer := 1 }

end Gogogo

namespace Gogogo

/-! ## Basic lemmas about grids, carving monotonicity, and cell counting -/

theorem setCell_self (g : Grid) (c : Cell) (v : Nat) : setCell g c v c = v := by
  unfold setCell
  exact Function.update_same c v g

theorem setCell_ne (g : Grid) (c : Cell) (v : Nat) {x : Cell} (h : x ≠ c) :
    setCell g c v x = g x := by
  unfold setCell
  exact Function.update_noteq h v g

theorem card_filter_eq_sum {α : Type} (s : Finset α) (p : α → Prop)
    [DecidablePred p] :
    (s.filter p).card = ∑ x ∈ s, if p x then 1 else 0 := by
  rw [Finset.card_eq_sum_ones, Finset.sum_filter]

theorem mem_cells {D : Int} {c : Cell} :
    c ∈ cells D ↔ 0 ≤ c.1 ∧ c.1 < D ∧ 0 ≤ c.2 ∧ c.2 < D := by
  simp [cells, Finset.mem_product, Finset.mem_Ico, and_assoc]

theorem subgrid_refl (g : Grid) : Subgrid g g := fun _ => Or.inl rfl

theorem subgrid_trans {g1 g2 g3 : Grid} (h12 : Subgrid g1 g2)
    (h23 : Subgrid g2 g3) : Subgrid g1 g3 := by
  intro c
  rcases h12 c with h | h
  · rw [h]; exact h23 c
  · exact Or.inr h

theorem subgrid_setCell (g : Grid) (c : Cell) : Subgrid (setCell g c 0) g := by
  intro x
  by_cases hx : x = c
  · subst hx; exact Or.inr (setCell_self ..)
  · exact Or.inl (setCell_ne _ _ _ hx)

theorem subgrid_zero {g' g : Grid} (h : Subgrid g' g) {c : Cell}
    (h0 : g c = 0) : g' c = 0 := by
  rcases h c with hc | hc
  · rw [hc, h0]
  · exact hc

theorem carveDirs_subgrid (D : Int) (σ : Nat → List (Int × Int)) :
    ∀ fuel g ctr cx cy dirs,
      Subgrid (carveDirs D σ fuel g ctr cx cy dirs).1 g := by
  intro fuel
  induction fuel with
  | zero => intro g ctr cx cy dirs; exact subgrid_refl g
  | succ n ih =>
    intro g ctr cx cy dirs
    match dirs with
    | [] => exact subgrid_refl g
    | (dx, dy) :: ds =>
      simp only [carveDirs]
      split
      · exact subgrid_trans (subgrid_trans (ih _ _ _ _ _)
          (ih _ _ _ _ _))
          (subgrid_trans (subgrid_setCell _ _) (subgrid_setCell _ _))
      · exact ih _ _ _ _ _

/-- One-changed-point comparison of two filtered cardinalities. -/
theorem card_filter_one_point {α : Type} [DecidableEq α] (s : Finset α)
    (p q : α → Prop) [DecidablePred p] [DecidablePred q] (a : α) (ha : a ∈ s)
    (hsame : ∀ x ∈ s, x ≠ a → (p x ↔ q x)) :
    (s.filter q).card + (if p a then 1 else 0)
      = (s.filter p).card + (if q a then 1 else 0) := by
  have hp : ((s.filter p).card : ℕ)
      = ∑ x ∈ s.erase a, (if p x then 1 else 0) + (if p a then 1 else 0) := by
    rw [card_filter_eq_sum, ← Finset.sum_erase_add s _ ha]
  have hq : ((s.filter q).card : ℕ)
      = ∑ x ∈ s.erase a, (if q x then 1 else 0) + (if q a then 1 else 0) := by
    rw [card_filter_eq_sum, ← Finset.sum_erase_add s _ ha]
  have hsum : ∑ x ∈ s.erase a, (if p x then 1 else 0)
      = ∑ x ∈ s.erase a, (if q x then 1 else 0) := by
    refine Finset.sum_congr rfl ?_
    intro x hx
    rcases Finset.mem_erase.mp hx with ⟨hxa, hxs⟩
    exact if_congr (hsame x hxs hxa) rfl rfl
  omega

/-- Two-changed-points comparison of two filtered cardinalities. -/
theorem card_filter_two_point {α : Type} [DecidableEq α] (s : Finset α)
    (p q : α → Prop) [DecidablePred p] [DecidablePred q] (a b : α)
    (ha : a ∈ s) (hb : b ∈ s) (hab : a ≠ b)
    (hsame : ∀ x ∈ s, x ≠ a → x ≠ b → (p x ↔ q x)) :
    (s.filter q).card + ((if p a then 1 else 0) + (if p b then 1 else 0))
      = (s.filter p).card
        + ((if q a then 1 else 0) + (if q b then 1 else 0)) := by
  have hbe : b ∈ s.erase a := Finset.mem_erase.mpr ⟨Ne.symm hab, hb⟩
  have hp : ((s.filter p).card : ℕ)
      = ∑ x ∈ (s.erase a).erase b, (if p x then 1 else 0)
        + (if p b then 1 else 0) + (if p a then 1 else 0) := by
    rw [card_filter_eq_sum, ← Finset.sum_erase_add s _ ha,
      ← Finset.sum_erase_add (s.erase a) _ hbe]
  have hq : ((s.filter q).card : ℕ)
      = ∑ x ∈ (s.erase a).erase b, (if q x then 1 else 0)
        + (if q b then 1 else 0) + (if q a then 1 else 0) := by
    rw [card_filter_eq_sum, ← Finset.sum_erase_add s _ ha,
      ← Finset.sum_erase_add (s.erase a) _ hbe]
  have hsum : ∑ x ∈ (s.erase a).erase b, (if p x then 1 else 0)
      = ∑ x ∈ (s.erase a).erase b, (if q x then 1 else 0) := by
    refine Finset.sum_congr rfl ?_
    intro x hx
    rcases Finset.mem_erase.mp hx with ⟨hxb, hx'⟩
    rcases Finset.mem_erase.mp hx' with ⟨hxa, hxs⟩
    exact if_congr (hsame x hxs hxa hxb) rfl rfl
  omega

/-- Opening a wall cell adds one path cell. -/
theorem pathCount_setCell0 {D : Int} {g : Grid} {c : Cell} (hc : c ∈ cells D)
    (hw : g c ≠ 0) : pathCount D (setCell g c 0) = pathCount D g + 1 := by
  have key := card_filter_one_point (cells D) (fun x => g x = 0)
    (fun x => setCell g c 0 x = 0) c hc
    (fun x _ hx => by simp [setCell_ne _ _ _ hx])
  simp [hw, setCell_self] at key
  unfold pathCount
  omega

/-- Opening a cell never increases the wall count. -/
theorem wallCount_setCell0_le (D : Int) (g : Grid) (c : Cell) :
    wallCount D (setCell g c 0) ≤ wallCount D g := by
  by_cases hc : c ∈ cells D
  · have key := card_filter_one_point (cells D) (fun x => g x = 1)
      (fun x => setCell g c 0 x = 1) c hc
      (fun x _ hx => by simp [setCell_ne _ _ _ hx])
    simp [setCell_self] at key
    unfold wallCount
    omega
  · have : (cells D).filter (fun x => setCell g c 0 x = 1)
        = (cells D).filter (fun x => g x = 1) := by
      refine Finset.filter_congr ?_
      intro x hx
      have hxc : x ≠ c := fun h => hc (h ▸ hx)
      rw [setCell_ne _ _ _ hxc]
    unfold wallCount
    rw [this]

/-- Opening a wall cell inside the grid strictly decreases the wall count. -/
theorem wallCount_setCell0_lt {D : Int} {g : Grid} {c : Cell}
    (hc : c ∈ cells D) (hw : g c = 1) :
    wallCount D (setCell g c 0) < wallCount D g := by
  have key := card_filter_one_point (cells D) (fun x => g x = 1)
    (fun x => setCell g c 0 x = 1) c hc
    (fun x _ hx => by simp [setCell_ne _ _ _ hx])
  simp [hw, setCell_self] at key
  unfold wallCount
  omega

theorem ne_cell_of_fst {a b : Int} {c : Cell} (h : a ≠ c.1) :
    ((a, b) : Cell) ≠ c := fun he => h (congrArg Prod.fst he)

theorem ne_cell_of_snd {a b : Int} {c : Cell} (h : b ≠ c.2) :
    ((a, b) : Cell) ≠ c := fun he => h (congrArg Prod.snd he)

/-- Opening an interior wall cell raises the horizontal pair count by the
number of its horizontally adjacent path cells. -/
theorem pairsH_setCell0 {D : Int} {g : Grid} {c : Cell}
    (h1 : 1 ≤ c.1) (h2 : c.1 ≤ D - 2) (h3 : 1 ≤ c.2) (h4 : c.2 ≤ D - 2)
    (hw : g c ≠ 0) :
    pairsH D (setCell g c 0) = pairsH D g
      + ((if g (c.1 + 1, c.2) = 0 then 1 else 0)
        + (if g (c.1 - 1, c.2) = 0 then 1 else 0)) := by
  have ha : c ∈ cells D := mem_cells.mpr ⟨by omega, by omega, by omega, by omega⟩
  have hb : ((c.1 - 1, c.2) : Cell) ∈ cells D := by
    rw [mem_cells]
    refine ⟨?_, ?_, ?_, ?_⟩ <;> simp <;> omega
  have hab : c ≠ (c.1 - 1, c.2) := by
    intro h
    have := congrArg Prod.fst h
    simp at this
    omega
  have hne1 : ((c.1 + 1, c.2) : Cell) ≠ c := ne_cell_of_fst (by omega)
  have hne2 : ((c.1 - 1, c.2) : Cell) ≠ c := ne_cell_of_fst (by omega)
  have key := card_filter_two_point (cells D)
    (fun x => g x = 0 ∧ g (x.1 + 1, x.2) = 0)
    (fun x => setCell g c 0 x = 0 ∧ setCell g c 0 (x.1 + 1, x.2) = 0)
    c (c.1 - 1, c.2) ha hb hab ?_
  · have hx1 : ((c.1 - 1 + 1 : Int), c.2) = c := by
      rw [sub_add_cancel]
    simp only [hx1, setCell_ne g c 0 hne1, setCell_ne g c 0 hne2,
      setCell_self] at key
    simp [hw] at key
    unfold pairsH
    omega
  · intro x hx hxa hxb
    have hx2 : ((x.1 + 1 : Int), x.2) ≠ c := by
      intro h
      apply hxb
      rw [Prod.ext_iff] at h ⊢
      simp only [] at h ⊢
      omega
    simp [setCell_ne _ _ _ hxa, setCell_ne _ _ _ hx2]

/-- Opening an interior wall cell raises the vertical pair count by the
number of its vertically adjacent path cells. -/
theorem pairsV_setCell0 {D : Int} {g : Grid} {c : Cell}
    (h1 : 1 ≤ c.1) (h2 : c.1 ≤ D - 2) (h3 : 1 ≤ c.2) (h4 : c.2 ≤ D - 2)
    (hw : g c ≠ 0) :
    pairsV D (setCell g c 0) = pairsV D g
      + ((if g (c.1, c.2 + 1) = 0 then 1 else 0)
        + (if g (c.1, c.2 - 1) = 0 then 1 else 0)) := by
  have ha : c ∈ cells D := mem_cells.mpr ⟨by omega, by omega, by omega, by omega⟩
  have hb : ((c.1, c.2 - 1) : Cell) ∈ cells D := by
    rw [mem_cells]
    refine ⟨?_, ?_, ?_, ?_⟩ <;> simp <;> omega
  have hab : c ≠ (c.1, c.2 - 1) := by
    intro h
    have := congrArg Prod.snd h
    simp at this
    omega
  have hne1 : ((c.1, c.2 + 1) : Cell) ≠ c := ne_cell_of_snd (by omega)
  have hne2 : ((c.1, c.2 - 1) : Cell) ≠ c := ne_cell_of_snd (by omega)
  have key := card_filter_two_point (cells D)
    (fun x => g x = 0 ∧ g (x.1, x.2 + 1) = 0)
    (fun x => setCell g c 0 x = 0 ∧ setCell g c 0 (x.1, x.2 + 1) = 0)
    c (c.1, c.2 - 1) ha hb hab ?_
  · have hx1 : ((c.1 : Int), c.2 - 1 + 1) = c := by
      rw [sub_add_cancel]
    simp only [hx1, setCell_ne g c 0 hne1, setCell_ne g c 0 hne2,
      setCell_self] at key
    simp [hw] at key
    unfold pairsV
    omega
  · intro x hx hxa hxb
    have hx2 : ((x.1 : Int), x.2 + 1) ≠ c := by
      intro h
      apply hxb
      rw [Prod.ext_iff] at h ⊢
      simp only [] at h ⊢
      omega
    simp [setCell_ne _ _ _ hxa, setCell_ne _ _ _ hx2]

/-- Opening an interior wall cell raises the pair count by the number of its
orthogonally adjacent path cells. -/
theorem pairs_setCell0 {D : Int} {g : Grid} {c : Cell}
    (h1 : 1 ≤ c.1) (h2 : c.1 ≤ D - 2) (h3 : 1 ≤ c.2) (h4 : c.2 ≤ D - 2)
    (hw : g c ≠ 0) :
    pairs D (setCell g c 0) = pairs D g
      + ((if g (c.1 + 1, c.2) = 0 then 1 else 0)
        + (if g (c.1 - 1, c.2) = 0 then 1 else 0)
        + ((if g (c.1, c.2 + 1) = 0 then 1 else 0)
          + (if g (c.1, c.2 - 1) = 0 then 1 else 0))) := by
  unfold pairs
  rw [pairsH_setCell0 h1 h2 h3 h4 hw, pairsV_setCell0 h1 h2 h3 h4 hw]
  omega

theorem subgrid_wallCount_le {D : Int} {g' g : Grid} (h : Subgrid g' g) :
    wallCount D g' ≤ wallCount D g := by
  unfold wallCount
  refine Finset.card_le_card ?_
  intro x hx
  rcases Finset.mem_filter.mp hx with ⟨hxs, hx1⟩
  refine Finset.mem_filter.mpr ⟨hxs, ?_⟩
  rcases h x with hc | hc
  · rw [← hc]; exact hx1
  · rw [hc] at hx1; exact absurd hx1 (by simp)

theorem setCell_zero_mono {g : Grid} {c : Cell} (x : Cell) (h : g c = 0) :
    setCell g x 0 c = 0 := by
  by_cases hc : c = x
  · subst hc; exact setCell_self ..
  · rw [setCell_ne _ _ _ hc]; exact h

theorem reach_mono {g g' : Grid} (h : ∀ c, g c = 0 → g' c = 0) {s c : Cell}
    (hr : Reach g s c) : Reach g' s c :=
  Relation.ReflTransGen.mono (fun _ b hab => ⟨hab.1, h b hab.2⟩) hr

theorem reach_step {g : Grid} {s a b : Cell} (hr : Reach g s a)
    (hadj : Adj a b) (hb : g b = 0) : Reach g s b :=
  Relation.ReflTransGen.tail hr ⟨hadj, hb⟩

/-- Around a non-path cell with two odd coordinates, the four orthogonal
neighbours (all corridor-parity cells) are non-path as well: a corridor cell
is only ever opened together with both of its odd-coordinate endpoints. -/
theorem wall_around_odd {g : Grid} {B : Cell} (hmid : MidLinked g)
    (hB : g B ≠ 0) (h1 : B.1 % 2 = 1) (h2 : B.2 % 2 = 1) :
    g (B.1 + 1, B.2) ≠ 0 ∧ g (B.1 - 1, B.2) ≠ 0 ∧ g (B.1, B.2 + 1) ≠ 0 ∧
      g (B.1, B.2 - 1) ≠ 0 := by
  refine ⟨fun h0 => ?_, fun h0 => ?_, fun h0 => ?_, fun h0 => ?_⟩
  · have hml := (hmid _ h0).1 (by simp only []; omega) (by simp only []; omega)
    have : g (B.1 + 1 - 1, B.2) = 0 := hml.1
    rw [show (B.1 + 1 - 1 : Int) = B.1 by omega] at this
    exact hB this
  · have hml := (hmid _ h0).1 (by simp only []; omega) (by simp only []; omega)
    have : g (B.1 - 1 + 1, B.2) = 0 := hml.2
    rw [show (B.1 - 1 + 1 : Int) = B.1 by omega] at this
    exact hB this
  · have hml := (hmid _ h0).2 (by simp only []; omega) (by simp only []; omega)
    have : g (B.1, B.2 + 1 - 1) = 0 := hml.1
    rw [show (B.2 + 1 - 1 : Int) = B.2 by omega] at this
    exact hB this
  · have hml := (hmid _ h0).2 (by simp only []; omega) (by simp only []; omega)
    have : g (B.1, B.2 - 1 + 1) = 0 := hml.2
    rw [show (B.2 - 1 + 1 : Int) = B.2 by omega] at this
    exact hB this

/-- One carving step preserves the maze invariant: from a path cell `A`,
opening the intermediate cell `I` and the wall cell `B` two steps away keeps
the grid a tree of interior, corridor-disciplined path cells reachable from
the start. -/
theorem inv_extend {D : Int} {s : Cell} {g : Grid} {A I B : Cell}
    (hInv : MazeInv D s g) (hA : g A = 0)
    (hAI : Adj A I) (hIB : Adj I B)
    (hIin1 : 1 ≤ I.1) (hIin2 : I.1 ≤ D - 2) (hIin3 : 1 ≤ I.2)
    (hIin4 : I.2 ≤ D - 2)
    (hBin1 : 1 ≤ B.1) (hBin2 : B.1 ≤ D - 2) (hBin3 : 1 ≤ B.2)
    (hBin4 : B.2 ≤ D - 2)
    (hBodd1 : B.1 % 2 = 1) (hBodd2 : B.2 % 2 = 1)
    (hB : g B ≠ 0)
    (hImidH : I.1 % 2 = 0 → I.2 % 2 = 1 →
      ((I.1 - 1, I.2) = A ∧ (I.1 + 1, I.2) = B) ∨
        ((I.1 - 1, I.2) = B ∧ (I.1 + 1, I.2) = A))
    (hImidV : I.1 % 2 = 1 → I.2 % 2 = 0 →
      ((I.1, I.2 - 1) = A ∧ (I.1, I.2 + 1) = B) ∨
        ((I.1, I.2 - 1) = B ∧ (I.1, I.2 + 1) = A)) :
    MazeInv D s (setCell (setCell g I 0) B 0) := by
  have hIB' := hIB
  unfold Adj at hIB'
  have hIpar : (I.1 % 2 = 0 ∧ I.2 % 2 = 1) ∨ (I.1 % 2 = 1 ∧ I.2 % 2 = 0) := by
    omega
  have hI : g I ≠ 0 := by
    intro h0
    have hml := hInv.mid I h0
    rcases hIpar with ⟨he, ho⟩ | ⟨ho, he⟩
    · rcases hImidH he ho with ⟨_, hB'⟩ | ⟨hB', _⟩
      · exact hB (hB' ▸ (hml.1 he ho).2)
      · exact hB (hB' ▸ (hml.1 he ho).1)
    · rcases hImidV ho he with ⟨_, hB'⟩ | ⟨hB', _⟩
      · exact hB (hB' ▸ (hml.2 ho he).2)
      · exact hB (hB' ▸ (hml.2 ho he).1)
  have hBneI : B ≠ I := by
    intro h
    rw [h] at hIB'
    omega
  have hIneB : I ≠ B := fun h => hBneI h.symm
  have hg2B : setCell g I 0 B ≠ 0 := by
    rw [setCell_ne _ _ _ hBneI]; exact hB
  have hg2I : setCell g I 0 I = 0 := setCell_self ..
  have hg3I : setCell (setCell g I 0) B 0 I = 0 := by
    rw [setCell_ne _ _ _ hIneB]; exact hg2I
  have hg3B : setCell (setCell g I 0) B 0 B = 0 := setCell_self ..
  have hmono3 : ∀ c, g c = 0 → setCell (setCell g I 0) B 0 c = 0 :=
    fun c hc => setCell_zero_mono B (setCell_zero_mono I hc)
  -- the carve step opens exactly one new adjacency at I …
  have hpairsI : pairs D (setCell g I 0) = pairs D g + 1 := by
    rw [pairs_setCell0 hIin1 hIin2 hIin3 hIin4 hI]
    rcases hIpar with ⟨he, ho⟩ | ⟨ho, he⟩
    · have hv1 : ¬ g (I.1, I.2 + 1) = 0 := by
        intro h0
        have hgc := hInv.good _ h0
        simp only [] at hgc
        omega
      have hv2 : ¬ g (I.1, I.2 - 1) = 0 := by
        intro h0
        have hgc := hInv.good _ h0
        simp only [] at hgc
        omega
      rcases hImidH he ho with ⟨hA', hB'⟩ | ⟨hB', hA'⟩ <;>
        simp [hA', hB', hA, hB, hv1, hv2]
    · have hv1 : ¬ g (I.1 + 1, I.2) = 0 := by
        intro h0
        have hgc := hInv.good _ h0
        simp only [] at hgc
        omega
      have hv2 : ¬ g (I.1 - 1, I.2) = 0 := by
        intro h0
        have hgc := hInv.good _ h0
        simp only [] at hgc
        omega
      rcases hImidV ho he with ⟨hA', hB'⟩ | ⟨hB', hA'⟩ <;>
        simp [hA', hB', hA, hB, hv1, hv2]
  -- … and exactly one new adjacency at B, namely to I
  have hslot : I = (B.1 + 1, B.2) ∨ I = (B.1 - 1, B.2) ∨
      I = (B.1, B.2 + 1) ∨ I = (B.1, B.2 - 1) := by
    have hcomp : (I.1 = B.1 + 1 ∧ I.2 = B.2) ∨ (I.1 = B.1 - 1 ∧ I.2 = B.2) ∨
        (I.1 = B.1 ∧ I.2 = B.2 + 1) ∨ (I.1 = B.1 ∧ I.2 = B.2 - 1) := by
      omega
    rcases hcomp with ⟨u, v⟩ | ⟨u, v⟩ | ⟨u, v⟩ | ⟨u, v⟩
    · exact Or.inl (by rw [Prod.ext_iff]; exact ⟨u, v⟩)
    · exact Or.inr (Or.inl (by rw [Prod.ext_iff]; exact ⟨u, v⟩))
    · exact Or.inr (Or.inr (Or.inl (by rw [Prod.ext_iff]; exact ⟨u, v⟩)))
    · exact Or.inr (Or.inr (Or.inr (by rw [Prod.ext_iff]; exact ⟨u, v⟩)))
  have hwall := wall_around_odd hInv.mid hB hBodd1 hBodd2
  have hpairsB : pairs D (setCell (setCell g I 0) B 0)
      = pairs D (setCell g I 0) + 1 := by
    rw [pairs_setCell0 hBin1 hBin2 hBin3 hBin4 hg2B]
    rcases hslot with hs | hs | hs | hs
    · have hW : ((B.1 - 1, B.2) : Cell) ≠ I := by
        rw [hs]; intro h; rw [Prod.ext_iff] at h; simp only [] at h; omega
      have hN : ((B.1, B.2 + 1) : Cell) ≠ I := by
        rw [hs]; intro h; rw [Prod.ext_iff] at h; simp only [] at h; omega
      have hS : ((B.1, B.2 - 1) : Cell) ≠ I := by
        rw [hs]; intro h; rw [Prod.ext_iff] at h; simp only [] at h; omega
      have hE0 : setCell g I 0 (B.1 + 1, B.2) = 0 := by rw [← hs]; exact hg2I
      simp [hE0, setCell_ne g I 0 hW, setCell_ne g I 0 hN,
        setCell_ne g I 0 hS, hwall.2.1, hwall.2.2.1, hwall.2.2.2]
    · have hE : ((B.1 + 1, B.2) : Cell) ≠ I := by
        rw [hs]; intro h; rw [Prod.ext_iff] at h; simp only [] at h; omega
      have hN : ((B.1, B.2 + 1) : Cell) ≠ I := by
        rw [hs]; intro h; rw [Prod.ext_iff] at h; simp only [] at h; omega
      have hS : ((B.1, B.2 - 1) : Cell) ≠ I := by
        rw [hs]; intro h; rw [Prod.ext_iff] at h; simp only [] at h; omega
      have hW0 : setCell g I 0 (B.1 - 1, B.2) = 0 := by rw [← hs]; exact hg2I
      simp [hW0, setCell_ne g I 0 hE, setCell_ne g I 0 hN,
        setCell_ne g I 0 hS, hwall.1, hwall.2.2.1, hwall.2.2.2]
    · have hE : ((B.1 + 1, B.2) : Cell) ≠ I := by
        rw [hs]; intro h; rw [Prod.ext_iff] at h; simp only [] at h; omega
      have hW : ((B.1 - 1, B.2) : Cell) ≠ I := by
        rw [hs]; intro h; rw [Prod.ext_iff] at h; simp only [] at h; omega
      have hS : ((B.1, B.2 - 1) : Cell) ≠ I := by
        rw [hs]; intro h; rw [Prod.ext_iff] at h; simp only [] at h; omega
      have hN0 : setCell g I 0 (B.1, B.2 + 1) = 0 := by rw [← hs]; exact hg2I
      simp [hN0, setCell_ne g I 0 hE, setCell_ne g I 0 hW,
        setCell_ne g I 0 hS, hwall.1, hwall.2.1, hwall.2.2.2]
    · have hE : ((B.1 + 1, B.2) : Cell) ≠ I := by
        rw [hs]; intro h; rw [Prod.ext_iff] at h; simp only [] at h; omega
      have hW : ((B.1 - 1, B.2) : Cell) ≠ I := by
        rw [hs]; intro h; rw [Prod.ext_iff] at h; simp only [] at h; omega
      have hN : ((B.1, B.2 + 1) : Cell) ≠ I := by
        rw [hs]; intro h; rw [Prod.ext_iff] at h; simp only [] at h; omega
      have hS0 : setCell g I 0 (B.1, B.2 - 1) = 0 := by rw [← hs]; exact hg2I
      simp [hS0, setCell_ne g I 0 hE, setCell_ne g I 0 hW,
        setCell_ne g I 0 hN, hwall.1, hwall.2.1, hwall.2.2.1]
  have hmemI : I ∈ cells D :=
    mem_cells.mpr ⟨by omega, by omega, by omega, by omega⟩
  have hmemB : B ∈ cells D :=
    mem_cells.mpr ⟨by omega, by omega, by omega, by omega⟩
  have hpcI : pathCount D (setCell g I 0) = pathCount D g + 1 :=
    pathCount_setCell0 hmemI hI
  have hpcB : pathCount D (setCell (setCell g I 0) B 0)
      = pathCount D (setCell g I 0) + 1 :=
    pathCount_setCell0 hmemB hg2B
  constructor
  · intro c hc
    by_cases hcB : c = B
    · subst hcB; exact ⟨hBin1, hBin2, hBin3, hBin4, Or.inl hBodd1⟩
    · rw [setCell_ne _ _ _ hcB] at hc
      by_cases hcI : c = I
      · subst hcI
        refine ⟨hIin1, hIin2, hIin3, hIin4, ?_⟩
        rcases hIpar with ⟨he, ho⟩ | ⟨ho, he⟩
        · exact Or.inr ho
        · exact Or.inl ho
      · rw [setCell_ne _ _ _ hcI] at hc
        exact hInv.good c hc
  · intro c hc
    by_cases hcB : c = B
    · subst hcB
      constructor
      · intro h0 _; omega
      · intro _ h0; omega
    · rw [setCell_ne _ _ _ hcB] at hc
      by_cases hcI : c = I
      · subst hcI
        constructor
        · intro he ho
          rcases hImidH he ho with ⟨hA', hB'⟩ | ⟨hB', hA'⟩
          · exact ⟨by rw [hA']; exact hmono3 A hA, by rw [hB']; exact hg3B⟩
          · exact ⟨by rw [hB']; exact hg3B, by rw [hA']; exact hmono3 A hA⟩
        · intro ho he
          rcases hImidV ho he with ⟨hA', hB'⟩ | ⟨hB', hA'⟩
          · exact ⟨by rw [hA']; exact hmono3 A hA, by rw [hB']; exact hg3B⟩
          · exact ⟨by rw [hB']; exact hg3B, by rw [hA']; exact hmono3 A hA⟩
      · rw [setCell_ne _ _ _ hcI] at hc
        have hml := hInv.mid c hc
        constructor
        · intro he ho
          exact ⟨hmono3 _ (hml.1 he ho).1, hmono3 _ (hml.1 he ho).2⟩
        · intro ho he
          exact ⟨hmono3 _ (hml.2 ho he).1, hmono3 _ (hml.2 ho he).2⟩
  · intro c hc
    by_cases hcB : c = B
    · rw [hcB]
      have hrA : Reach (setCell (setCell g I 0) B 0) s A :=
        reach_mono hmono3 (hInv.conn A hA)
      exact reach_step (reach_step hrA hAI hg3I) hIB hg3B
    · rw [setCell_ne _ _ _ hcB] at hc
      by_cases hcI : c = I
      · rw [hcI]
        have hrA : Reach (setCell (setCell g I 0) B 0) s A :=
          reach_mono hmono3 (hInv.conn A hA)
        exact reach_step hrA hAI hg3I
      · rw [setCell_ne _ _ _ hcI] at hc
        exact reach_mono hmono3 (hInv.conn c hc)
  · have := hInv.tree
    omega

theorem cell_eq {a b c d : Int} (h1 : a = c) (h2 : b = d) :
    ((a, b) : Cell) = (c, d) := by rw [h1, h2]

/-- The direction loop of the carver preserves the maze invariant whenever it
runs at an interior odd–odd path cell on directions from the direction list. -/
theorem carveDirs_inv (D : Int) (σ : Nat → List (Int × Int)) (s : Cell)
    (hσ : ∀ n, ∀ d ∈ σ n, d ∈ baseDirs) :
    ∀ fuel (g : Grid) (ctr : Nat) (cx cy : Int) (dirs : List (Int × Int)),
      (∀ d ∈ dirs, d ∈ baseDirs) →
      MazeInv D s g → g (cx, cy) = 0 →
      1 ≤ cx → cx ≤ D - 2 → 1 ≤ cy → cy ≤ D - 2 →
      cx % 2 = 1 → cy % 2 = 1 →
      MazeInv D s (carveDirs D σ fuel g ctr cx cy dirs).1 := by
  intro fuel
  induction fuel with
  | zero =>
    intro g ctr cx cy dirs _ hInv _ _ _ _ _ _ _
    simpa [carveDirs] using hInv
  | succ n ih =>
    intro g ctr cx cy dirs hdirs hInv hA h1 h2 h3 h4 h5 h6
    match dirs with
    | [] => simpa [carveDirs] using hInv
    | (dx, dy) :: ds =>
      have hd : ((dx, dy) : Int × Int) ∈ baseDirs := hdirs _ (by simp)
      have hds : ∀ d ∈ ds, d ∈ baseDirs :=
        fun d hx => hdirs d (List.mem_cons_of_mem _ hx)
      simp only [baseDirs, List.mem_cons, List.not_mem_nil, or_false,
        Prod.mk.injEq] at hd
      simp only [carveDirs]
      split
      · next hok =>
        obtain ⟨hb1, hb2, hb3, hb4, hBw⟩ := hok
        have hInv3 : MazeInv D s
            (setCell (setCell g (cx + dx, cy + dy) 0)
              (cx + dx * 2, cy + dy * 2) 0) := by
          rcases hd with ⟨hdx, hdy⟩ | ⟨hdx, hdy⟩ | ⟨hdx, hdy⟩ | ⟨hdx, hdy⟩ <;>
            subst hdx <;> subst hdy
          · refine inv_extend hInv hA
              (by unfold Adj; simp only []; omega)
              (by unfold Adj; simp only []; omega)
              (by simp only []; try omega) (by simp only []; try omega)
              (by simp only []; try omega) (by simp only []; try omega)
              (by simp only []; try omega) (by simp only []; try omega)
              (by simp only []; try omega) (by simp only []; try omega)
              (by simp only []; try omega) (by simp only []; try omega)
              (by rw [hBw]; omega) ?_ ?_
            · intro he _
              exact absurd he (by simp only []; try omega)
            · intro _ _
              exact Or.inl ⟨cell_eq (by simp only []; try omega) (by simp only []; try omega),
                cell_eq (by simp only []; try omega) (by simp only []; try omega)⟩
          · refine inv_extend hInv hA
              (by unfold Adj; simp only []; omega)
              (by unfold Adj; simp only []; omega)
              (by simp only []; try omega) (by simp only []; try omega)
              (by simp only []; try omega) (by simp only []; try omega)
              (by simp only []; try omega) (by simp only []; try omega)
              (by simp only []; try omega) (by simp only []; try omega)
              (by simp only []; try omega) (by simp only []; try omega)
              (by rw [hBw]; omega) ?_ ?_
            · intro _ _
              exact Or.inl ⟨cell_eq (by simp only []; try omega) (by simp only []; try omega),
                cell_eq (by simp only []; try omega) (by simp only []; try omega)⟩
            · intro _ he
              exact absurd he (by simp only []; try omega)
          · refine inv_extend hInv hA
              (by unfold Adj; simp only []; omega)
              (by unfold Adj; simp only []; omega)
              (by simp only []; try omega) (by simp only []; try omega)
              (by simp only []; try omega) (by simp only []; try omega)
              (by simp only []; try omega) (by simp only []; try omega)
              (by simp only []; try omega) (by simp only []; try omega)
              (by simp only []; try omega) (by simp only []; try omega)
              (by rw [hBw]; omega) ?_ ?_
            · intro he _
              exact absurd he (by simp only []; try omega)
            · intro _ _
              exact Or.inr ⟨cell_eq (by simp only []; try omega) (by simp only []; try omega),
                cell_eq (by simp only []; try omega) (by simp only []; try omega)⟩
          · refine inv_extend hInv hA
              (by unfold Adj; simp only []; omega)
              (by unfold Adj; simp only []; omega)
              (by simp only []; try omega) (by simp only []; try omega)
              (by simp only []; try omega) (by simp only []; try omega)
              (by simp only []; try omega) (by simp only []; try omega)
              (by simp only []; try omega) (by simp only []; try omega)
              (by simp only []; try omega) (by simp only []; try omega)
              (by rw [hBw]; omega) ?_ ?_
            · intro _ _
              exact Or.inr ⟨cell_eq (by simp only []; try omega) (by simp only []; try omega),
                cell_eq (by simp only []; try omega) (by simp only []; try omega)⟩
            · intro _ he
              exact absurd he (by simp only []; try omega)
        have hg3B : (setCell (setCell g (cx + dx, cy + dy) 0)
            (cx + dx * 2, cy + dy * 2) 0) (cx + dx * 2, cy + dy * 2) = 0 :=
          setCell_self ..
        have hr1 := ih _ (ctr + 1) (cx + dx * 2) (cy + dy * 2) (σ ctr)
          (hσ ctr) hInv3 hg3B (by omega) (by omega) (by omega) (by omega)
          (by omega) (by omega)
        have hg3A : (setCell (setCell g (cx + dx, cy + dy) 0)
            (cx + dx * 2, cy + dy * 2) 0) (cx, cy) = 0 :=
          setCell_zero_mono _ (setCell_zero_mono _ hA)
        have hg4A := subgrid_zero (carveDirs_subgrid D σ n _ (ctr + 1)
          (cx + dx * 2) (cy + dy * 2) (σ ctr)) hg3A
        exact ih _ _ cx cy ds hds hr1 hg4A h1 h2 h3 h4 h5 h6
      · next hok =>
        exact ih g ctr cx cy ds hds hInv hA h1 h2 h3 h4 h5 h6

/-- The grid after carving only the start cell satisfies the maze invariant. -/
theorem initial_inv (D : Int) (sx sy : Int)
    (h1 : 1 ≤ sx) (h2 : sx ≤ D - 2) (h3 : 1 ≤ sy) (h4 : sy ≤ D - 2)
    (h5 : sx % 2 = 1) (h6 : sy % 2 = 1) :
    MazeInv D (sx, sy) (setCell initGrid (sx, sy) 0) := by
  have hval : ∀ c : Cell, setCell initGrid (sx, sy) 0 c = 0 → c = (sx, sy) := by
    intro c hc
    by_cases h : c = (sx, sy)
    · exact h
    · rw [setCell_ne _ _ _ h] at hc
      exact absurd hc (by simp [initGrid])
  constructor
  · intro c hc
    have hcs := hval c hc
    subst hcs
    exact ⟨h1, h2, h3, h4, Or.inl h5⟩
  · intro c hc
    have hcs := hval c hc
    subst hcs
    constructor
    · intro he _
      simp only [] at he
      omega
    · intro _ he
      simp only [] at he
      omega
  · intro c hc
    have hcs := hval c hc
    subst hcs
    exact Relation.ReflTransGen.refl
  · have hmem : ((sx, sy) : Cell) ∈ cells D :=
      mem_cells.mpr ⟨by omega, by omega, by omega, by omega⟩
    have hpc0 : pathCount D initGrid = 0 := by
      simp [pathCount, initGrid]
    have hpc : pathCount D (setCell initGrid (sx, sy) 0) = 1 := by
      rw [pathCount_setCell0 hmem (by simp [initGrid])]
      omega
    have hH : (cells D).filter (fun c => setCell initGrid (sx, sy) 0 c = 0 ∧
        setCell initGrid (sx, sy) 0 (c.1 + 1, c.2) = 0) = ∅ := by
      rw [Finset.filter_eq_empty_iff]
      intro c _
      rintro ⟨hc1, hc2⟩
      have e1 := hval c hc1
      subst e1
      have e2 := hval _ hc2
      have e3 := congrArg Prod.fst e2
      simp only [] at e3
      omega
    have hV : (cells D).filter (fun c => setCell initGrid (sx, sy) 0 c = 0 ∧
        setCell initGrid (sx, sy) 0 (c.1, c.2 + 1) = 0) = ∅ := by
      rw [Finset.filter_eq_empty_iff]
      intro c _
      rintro ⟨hc1, hc2⟩
      have e1 := hval c hc1
      subst e1
      have e2 := hval _ hc2
      have e3 := congrArg Prod.snd e2
      simp only [] at e3
      omega
    unfold pairs pairsH pairsV
    rw [hH, hV, hpc]
    simp

/-- `generate_random_maze` satisfies the maze invariant, with the carving
start cell `(a*2+1, b*2+1)` a path cell of the result. -/
theorem generate_inv (D : Int) (σ : Nat → List (Int × Int)) (a b : Int)
    (hD : 3 ≤ D) (hDodd : D % 2 = 1) (hσ : ValidShuffles σ)
    (ha0 : 0 ≤ a) (ha : a < D / 2) (hb0 : 0 ≤ b) (hb : b < D / 2) :
    MazeInv D (a * 2 + 1, b * 2 + 1) (generate_random_maze D σ a b) ∧
      generate_random_maze D σ a b (a * 2 + 1, b * 2 + 1) = 0 := by
  have hσ' : ∀ n, ∀ d ∈ σ n, d ∈ baseDirs :=
    fun n d hd => ((hσ n).mem_iff).mp hd
  have hc1 : 1 ≤ a * 2 + 1 := by omega
  have hc2 : a * 2 + 1 ≤ D - 2 := by omega
  have hc3 : 1 ≤ b * 2 + 1 := by omega
  have hc4 : b * 2 + 1 ≤ D - 2 := by omega
  have hgen : generate_random_maze D σ a b
      = (carveDirs D σ (mazeFuel D)
          (setCell initGrid (a * 2 + 1, b * 2 + 1) 0) 1
          (a * 2 + 1) (b * 2 + 1) (σ 0)).1 := rfl
  constructor
  · rw [hgen]
    exact carveDirs_inv D σ _ hσ' (mazeFuel D) _ 1 _ _ (σ 0) (hσ' 0)
      (initial_inv D _ _ hc1 hc2 hc3 hc4 (by omega) (by omega))
      (setCell_self ..) hc1 hc2 hc3 hc4 (by omega) (by omega)
  · rw [hgen]
    exact subgrid_zero (carveDirs_subgrid D σ (mazeFuel D) _ 1
      (a * 2 + 1) (b * 2 + 1) (σ 0)) (setCell_self ..)

/-- The carver makes fewer than `1 + |dirs| + 5·wallCount` nested calls, so
any two fuels above that bound compute the same result. -/
theorem carveDirs_fuel_irrel (D : Int) (σ : Nat → List (Int × Int))
    (hσ : ∀ n, (σ n).length = 4) :
    ∀ f1 f2 (g : Grid) (ctr : Nat) (cx cy : Int) (dirs : List (Int × Int)),
      1 + dirs.length + 5 * wallCount D g ≤ f1 →
      1 + dirs.length + 5 * wallCount D g ≤ f2 →
      carveDirs D σ f1 g ctr cx cy dirs
        = carveDirs D σ f2 g ctr cx cy dirs := by
  intro f1
  induction f1 with
  | zero =>
    intro f2 g ctr cx cy dirs hf1 _
    omega
  | succ n ih =>
    intro f2 g ctr cx cy dirs hf1 hf2
    match f2, dirs with
    | 0, _ => omega
    | f2' + 1, [] => simp [carveDirs]
    | f2' + 1, (dx, dy) :: ds =>
      simp only [List.length_cons] at hf1 hf2
      simp only [carveDirs]
      split
      · next hok =>
        obtain ⟨hbb1, hbb2, hbb3, hbb4, hBw⟩ := hok
        have hmem : ((cx + dx * 2, cy + dy * 2) : Cell) ∈ cells D :=
          mem_cells.mpr ⟨by omega, by omega, by omega, by omega⟩
        have hlt : wallCount D (setCell (setCell g (cx + dx, cy + dy) 0)
            (cx + dx * 2, cy + dy * 2) 0) < wallCount D g := by
          by_cases hIB : ((cx + dx, cy + dy) : Cell) = (cx + dx * 2, cy + dy * 2)
          · have h1 : wallCount D (setCell g (cx + dx, cy + dy) 0)
                < wallCount D g := by
              refine wallCount_setCell0_lt ?_ ?_
              · rw [hIB]; exact hmem
              · rw [hIB]; exact hBw
            exact lt_of_le_of_lt (wallCount_setCell0_le _ _ _) h1
          · have h2 : setCell g (cx + dx, cy + dy) 0
                (cx + dx * 2, cy + dy * 2) = 1 := by
              rw [setCell_ne _ _ _ (Ne.symm hIB)]; exact hBw
            exact lt_of_lt_of_le (wallCount_setCell0_lt hmem h2)
              (wallCount_setCell0_le _ _ _)
        have hr1 : carveDirs D σ n
              (setCell (setCell g (cx + dx, cy + dy) 0)
                (cx + dx * 2, cy + dy * 2) 0) (ctr + 1)
              (cx + dx * 2) (cy + dy * 2) (σ ctr)
            = carveDirs D σ f2'
              (setCell (setCell g (cx + dx, cy + dy) 0)
                (cx + dx * 2, cy + dy * 2) 0) (ctr + 1)
              (cx + dx * 2) (cy + dy * 2) (σ ctr) := by
          apply ih <;> rw [hσ ctr] <;> omega
        rw [hr1]
        have hsg := subgrid_wallCount_le (D := D)
          (carveDirs_subgrid D σ f2'
            (setCell (setCell g (cx + dx, cy + dy) 0)
              (cx + dx * 2, cy + dy * 2) 0) (ctr + 1)
            (cx + dx * 2) (cy + dy * 2) (σ ctr))
        apply ih <;> omega
      · next hok =>
        apply ih <;> omega

/-- The fuel handed over by `generate_random_maze` is sufficient: any larger
fuel computes the same maze, so the out-of-fuel branch of `carveDirs` is
unreachable in `generate_random_maze`. -/
theorem generate_fuel_sufficient (D : Int) (σ : Nat → List (Int × Int))
    (a b : Int) (hσ : ValidShuffles σ) (f : Nat) (hf : mazeFuel D ≤ f) :
    (carveDirs D σ f (setCell initGrid (a * 2 + 1, b * 2 + 1) 0) 1
        (a * 2 + 1) (b * 2 + 1) (σ 0)).1
      = generate_random_maze D σ a b := by
  have hlen : ∀ n, (σ n).length = 4 := fun n => (hσ n).length_eq
  have hwc : wallCount D (setCell initGrid (a * 2 + 1, b * 2 + 1) 0)
      ≤ D.toNat * D.toNat := by
    have h1 : wallCount D (setCell initGrid (a * 2 + 1, b * 2 + 1) 0)
        ≤ (cells D).card := Finset.card_filter_le _ _
    have h2 : (cells D).card = D.toNat * D.toNat := by
      unfold cells
      rw [Finset.card_product, Int.card_Ico]
      simp
    omega
  have heq := carveDirs_fuel_irrel D σ hlen f (mazeFuel D)
    (setCell initGrid (a * 2 + 1, b * 2 + 1) 0) 1 (a * 2 + 1) (b * 2 + 1)
    (σ 0) (by rw [hlen 0]; unfold mazeFuel at hf; omega)
    (by rw [hlen 0]; unfold mazeFuel; omega)
  rw [heq]
  rfl

/-- A generated grid takes only the values 0 (path) and 1 (wall). -/
theorem generate_values (D : Int) (σ : Nat → List (Int × Int)) (a b : Int) :
    ∀ c, generate_random_maze D σ a b c = 0 ∨
      generate_random_maze D σ a b c = 1 := by
  intro c
  have hgen : generate_random_maze D σ a b
      = (carveDirs D σ (mazeFuel D)
          (setCell initGrid (a * 2 + 1, b * 2 + 1) 0) 1
          (a * 2 + 1) (b * 2 + 1) (σ 0)).1 := rfl
  have hsub := carveDirs_subgrid D σ (mazeFuel D)
    (setCell initGrid (a * 2 + 1, b * 2 + 1) 0) 1 (a * 2 + 1) (b * 2 + 1)
    (σ 0)
  rcases hsub c with h | h
  · rw [hgen, h]
    by_cases hc : c = (a * 2 + 1, b * 2 + 1)
    · rw [hc, setCell_self]
      exact Or.inl rfl
    · rw [setCell_ne _ _ _ hc]
      exact Or.inr rfl
  · rw [hgen]
    exact Or.inl h

/-- On a sample stream that never satisfies the acceptance test, the
monster-spawn loop falls through to the grid centre. -/
theorem monsterSpawnLoop_exhaust (D : Int) (g : Grid) (ρ : Nat → Cell)
    (h : ∀ n, ¬ monsterSpawnOk D g (ρ n)) :
    ∀ fuel k, monsterSpawnLoop D g ρ fuel k = (D / 2, D / 2) := by
  intro fuel
  induction fuel with
  | zero => intro k; rfl
  | succ n ih =>
    intro k
    simp only [monsterSpawnLoop, if_neg (h k)]
    exact ih (k + 1)

/-- C1: for every odd dimension `D ≥ 3` and every outcome of the random
streams (shuffles `σ`, `randrange(D//2)` samples `a`, `b`), the grid produced
by `generate_random_maze` is a perfect maze: the set of path cells is
non-empty, every path cell is reachable from the carving start cell
`(a*2+1, b*2+1)` through orthogonally adjacent path cells, and the number of
orthogonally adjacent path–path pairs equals `pathCount − 1`, so the carving
structure has no cycles. -/
theorem C1_perfect_maze (D : Int) (σ : Nat → List (Int × Int)) (a b : Int)
    (hD : 3 ≤ D) (hDodd : D % 2 = 1) (hσ : ValidShuffles σ)
    (ha0 : 0 ≤ a) (ha : a < D / 2) (hb0 : 0 ≤ b) (hb : b < D / 2) :
    0 < pathCount D (generate_random_maze D σ a b) ∧
      (∀ c : Cell, generate_random_maze D σ a b c = 0 →
        Reach (generate_random_maze D σ a b) (a * 2 + 1, b * 2 + 1) c) ∧
      pairs D (generate_random_maze D σ a b) + 1
        = pathCount D (generate_random_maze D σ a b) := by
  obtain ⟨hInv, hs⟩ := generate_inv D σ a b hD hDodd hσ ha0 ha hb0 hb
  refine ⟨?_, hInv.conn, hInv.tree⟩
  have := hInv.tree
  omega

/-- Witness for C1 at `D = 3` with the identity shuffle stream. -/
theorem C1_perfect_maze_witness :
    0 < pathCount 3 (generate_random_maze 3 sigma0 0 0) ∧
      (∀ c : Cell, generate_random_maze 3 sigma0 0 0 c = 0 →
        Reach (generate_random_maze 3 sigma0 0 0) (0 * 2 + 1, 0 * 2 + 1) c) ∧
      pairs 3 (generate_random_maze 3 sigma0 0 0) + 1
        = pathCount 3 (generate_random_maze 3 sigma0 0 0) :=
  C1_perfect_maze 3 sigma0 0 0 (by norm_num) (by norm_num)
    (fun _ => List.Perm.refl _) (by norm_num) (by norm_num) (by norm_num)
    (by norm_num)

/-- C9: in a generated maze, every path cell has both coordinates in
`[1, D−2]` and at least one odd coordinate; equivalently, every cell of the
outer boundary ring and every cell with two even coordinates is still a
wall. -/
theorem C9_coordinate_discipline (D : Int) (σ : Nat → List (Int × Int))
    (a b : Int) (hD : 3 ≤ D) (hDodd : D % 2 = 1) (hσ : ValidShuffles σ)
    (ha0 : 0 ≤ a) (ha : a < D / 2) (hb0 : 0 ≤ b) (hb : b < D / 2) :
    (∀ c : Cell, generate_random_maze D σ a b c = 0 →
      1 ≤ c.1 ∧ c.1 ≤ D - 2 ∧ 1 ≤ c.2 ∧ c.2 ≤ D - 2 ∧
        (c.1 % 2 = 1 ∨ c.2 % 2 = 1)) ∧
    (∀ c : Cell, 0 ≤ c.1 → c.1 < D → 0 ≤ c.2 → c.2 < D →
      (c.1 = 0 ∨ c.1 = D - 1 ∨ c.2 = 0 ∨ c.2 = D - 1 ∨
        (c.1 % 2 = 0 ∧ c.2 % 2 = 0)) →
      generate_random_maze D σ a b c = 1) := by
  obtain ⟨hInv, _⟩ := generate_inv D σ a b hD hDodd hσ ha0 ha hb0 hb
  refine ⟨hInv.good, ?_⟩
  intro c hc1 hc2 hc3 hc4 hcond
  rcases generate_values D σ a b c with h0 | h1
  · exfalso
    have hgc := hInv.good c h0
    rcases hcond with h | h | h | h | ⟨h, h'⟩ <;> omega
  · exact h1

/-- Witness for C9 at `D = 3` with the identity shuffle stream. -/
theorem C9_coordinate_discipline_witness :
    (∀ c : Cell, generate_random_maze 3 sigma0 0 0 c = 0 →
      1 ≤ c.1 ∧ c.1 ≤ 3 - 2 ∧ 1 ≤ c.2 ∧ c.2 ≤ 3 - 2 ∧
        (c.1 % 2 = 1 ∨ c.2 % 2 = 1)) ∧
    (∀ c : Cell, 0 ≤ c.1 → c.1 < 3 → 0 ≤ c.2 → c.2 < 3 →
      (c.1 = 0 ∨ c.1 = 3 - 1 ∨ c.2 = 0 ∨ c.2 = 3 - 1 ∨
        (c.1 % 2 = 0 ∧ c.2 % 2 = 0)) →
      generate_random_maze 3 sigma0 0 0 c = 1) :=
  C9_coordinate_discipline 3 sigma0 0 0 (by norm_num) (by norm_num)
    (fun _ => List.Perm.refl _) (by norm_num) (by norm_num) (by norm_num)
    (by norm_num)

/-- C10: when the odd dimension `D` has an even half `D/2` — as with the
default configuration, whose `MAZE_DIMENSION = 20` is coerced to `21` with
`21 // 2 = 10` — the fallback cell `(D//2, D//2)` that
`find_monster_spawn_point` returns on exhaustion of its 100 attempts has two
even coordinates and is therefore a wall cell of every generated maze: the
fallback can never satisfy the path-cell guarantee. -/
theorem C10_fallback_is_wall (D : Int) (σ : Nat → List (Int × Int))
    (a b : Int) (hD : 3 ≤ D) (hDodd : D % 2 = 1) (hσ : ValidShuffles σ)
    (ha0 : 0 ≤ a) (ha : a < D / 2) (hb0 : 0 ≤ b) (hb : b < D / 2)
    (hhalf : (D / 2) % 2 = 0) :
    MAZE_DIMENSION = 21 ∧ MAZE_DIMENSION / 2 = 10 ∧ (10 : Int) % 2 = 0 ∧
      (∀ ρ : Nat → Cell,
        (∀ n, ¬ monsterSpawnOk D (generate_random_maze D σ a b) (ρ n)) →
        find_monster_spawn_point D (generate_random_maze D σ a b) ρ
          = (D / 2, D / 2)) ∧
      generate_random_maze D σ a b (D / 2, D / 2) = 1 := by
  obtain ⟨hInv, _⟩ := generate_inv D σ a b hD hDodd hσ ha0 ha hb0 hb
  refine ⟨by norm_num [MAZE_DIMENSION, MAZE_DIMENSION_configured],
    by norm_num [MAZE_DIMENSION, MAZE_DIMENSION_configured], by norm_num,
    fun ρ hρ => monsterSpawnLoop_exhaust D _ ρ hρ 100 0, ?_⟩
  rcases generate_values D σ a b (D / 2, D / 2) with h0 | h1
  · exfalso
    have hgc := hInv.good _ h0
    simp only [] at hgc
    omega
  · exact h1

/-- Witness for C10 at `D = 5` (where `5 // 2 = 2` is even). -/
theorem C10_fallback_is_wall_witness :
    MAZE_DIMENSION = 21 ∧ MAZE_DIMENSION / 2 = 10 ∧ (10 : Int) % 2 = 0 ∧
      (∀ ρ : Nat → Cell,
        (∀ n, ¬ monsterSpawnOk 5 (generate_random_maze 5 sigma0 0 0) (ρ n)) →
        find_monster_spawn_point 5 (generate_random_maze 5 sigma0 0 0) ρ
          = (5 / 2, 5 / 2)) ∧
      generate_random_maze 5 sigma0 0 0 (5 / 2, 5 / 2) = 1 :=
  C10_fallback_is_wall 5 sigma0 0 0 (by norm_num) (by norm_num)
    (fun _ => List.Perm.refl _) (by norm_num) (by norm_num) (by norm_num)
    (by norm_num) (by norm_num)

/-- The goal scan order is exactly the reversed spawn scan order. -/
theorem interiorScanRev_eq_reverse (D : Int) :
    interiorScanRev D = (interiorScan D).reverse := by
  have hrev : (List.range (D - 2).toNat).reverse
      = (List.range (D - 2).toNat).map
          (fun i => 0 + (D - 2).toNat - 1 - i) := by
    conv_lhs => rw [List.range_eq_range']
    exact List.reverse_range' ..
  unfold interiorScan interiorScanRev
  rw [List.reverse_flatMap]
  simp only [← List.map_reverse, hrev, List.flatMap_map, List.map_map]
  refine List.flatMap_congr ?_
  intro zi hzi
  simp only [Function.comp]
  rw [← List.map_reverse, hrev, List.map_map]
  refine List.map_congr_left ?_
  intro xi hxi
  simp only [Function.comp]
  rw [List.mem_range] at hzi hxi
  exact cell_eq (by omega) (by omega)

theorem mem_interiorScan {D : Int} {c : Cell} :
    c ∈ interiorScan D ↔
      1 ≤ c.1 ∧ c.1 ≤ D - 2 ∧ 1 ≤ c.2 ∧ c.2 ≤ D - 2 := by
  unfold interiorScan
  simp only [List.mem_flatMap, List.mem_map, List.mem_range]
  constructor
  · rintro ⟨zi, hzi, xi, hxi, rfl⟩
    simp only []
    omega
  · rintro ⟨h1, h2, h3, h4⟩
    refine ⟨(c.2 - 1).toNat, by omega, (c.1 - 1).toNat, by omega, ?_⟩
    rw [Prod.ext_iff]
    simp only []
    omega

/-- When some list element satisfies the predicate, the `find?`-plus-fallback
pattern returns a found element (the fallback is not used) satisfying the
predicate. -/
theorem find?_getD_spec {l : List Cell} {p : Cell → Prop} [DecidablePred p]
    (d : Cell) (hex : ∃ c ∈ l, p c) :
    l.find? (fun c => decide (p c))
        = some ((l.find? (fun c => decide (p c))).getD d)
      ∧ p ((l.find? (fun c => decide (p c))).getD d) := by
  obtain ⟨c, hc, hv⟩ := hex
  have hsome : (l.find? (fun c => decide (p c))).isSome := by
    rw [List.find?_isSome]
    exact ⟨c, hc, by simpa using hv⟩
  obtain ⟨r, hr⟩ := Option.isSome_iff_exists.mp hsome
  rw [hr]
  have hp := List.find?_some hr
  simp at hp
  exact ⟨rfl, hp⟩

/-- C3: for every generated maze, `find_spawn_point` returns the first valid
interior cell of the row-major interior scan — the underlying `find?`
succeeds, so the `(1, 1)` fallback is unused — `find_goal_point` returns the
first valid cell of the exactly reversed scan order (`interiorScanRev` is the
reversal of `interiorScan`, and its `find?` succeeds as well, so the
`(D−2, D−2)` fallback is unused), and both returned cells are path cells. -/
theorem C3_spawn_goal_first_path (D : Int) (σ : Nat → List (Int × Int))
    (a b : Int) (hD : 3 ≤ D) (hDodd : D % 2 = 1) (hσ : ValidShuffles σ)
    (ha0 : 0 ≤ a) (ha : a < D / 2) (hb0 : 0 ≤ b) (hb : b < D / 2) :
    interiorScanRev D = (interiorScan D).reverse ∧
    (interiorScan D).find?
        (fun c => decide (is_valid_grid_pos D (generate_random_maze D σ a b) c))
      = some (find_spawn_point D (generate_random_maze D σ a b)) ∧
    (interiorScanRev D).find?
        (fun c => decide (is_valid_grid_pos D (generate_random_maze D σ a b) c))
      = some (find_goal_point D (generate_random_maze D σ a b)) ∧
    generate_random_maze D σ a b
        (find_spawn_point D (generate_random_maze D σ a b)) = 0 ∧
    generate_random_maze D σ a b
        (find_goal_point D (generate_random_maze D σ a b)) = 0 := by
  obtain ⟨hInv, hs⟩ := generate_inv D σ a b hD hDodd hσ ha0 ha hb0 hb
  have hsmem : ((a * 2 + 1, b * 2 + 1) : Cell) ∈ interiorScan D := by
    rw [mem_interiorScan]
    refine ⟨?_, ?_, ?_, ?_⟩ <;> simp only [] <;> omega
  have hsvalid : is_valid_grid_pos D (generate_random_maze D σ a b)
      (a * 2 + 1, b * 2 + 1) := by
    refine ⟨?_, ?_, ?_, ?_, hs⟩ <;> simp only [] <;> omega
  have hspawn := find?_getD_spec (l := interiorScan D)
    (p := fun c => is_valid_grid_pos D (generate_random_maze D σ a b) c)
    (1, 1) ⟨_, hsmem, hsvalid⟩
  have hgmem : ((a * 2 + 1, b * 2 + 1) : Cell) ∈ interiorScanRev D := by
    rw [interiorScanRev_eq_reverse, List.mem_reverse]
    exact hsmem
  have hgoal := find?_getD_spec (l := interiorScanRev D)
    (p := fun c => is_valid_grid_pos D (generate_random_maze D σ a b) c)
    (D - 2, D - 2) ⟨_, hgmem, hsvalid⟩
  exact ⟨interiorScanRev_eq_reverse D, hspawn.1, hgoal.1,
    hspawn.2.2.2.2.2, hgoal.2.2.2.2.2⟩

/-- Witness for C3 at `D = 3` with the identity shuffle stream. -/
theorem C3_spawn_goal_first_path_witness :
    interiorScanRev 3 = (interiorScan 3).reverse ∧
    (interiorScan 3).find?
        (fun c => decide (is_valid_grid_pos 3 (generate_random_maze 3 sigma0 0 0) c))
      = some (find_spawn_point 3 (generate_random_maze 3 sigma0 0 0)) ∧
    (interiorScanRev 3).find?
        (fun c => decide (is_valid_grid_pos 3 (generate_random_maze 3 sigma0 0 0) c))
      = some (find_goal_point 3 (generate_random_maze 3 sigma0 0 0)) ∧
    generate_random_maze 3 sigma0 0 0
        (find_spawn_point 3 (generate_random_maze 3 sigma0 0 0)) = 0 ∧
    generate_random_maze 3 sigma0 0 0
        (find_goal_point 3 (generate_random_maze 3 sigma0 0 0)) = 0 :=
  C3_spawn_goal_first_path 3 sigma0 0 0 (by norm_num) (by norm_num)
    (fun _ => List.Perm.refl _) (by norm_num) (by norm_num) (by norm_num)
    (by norm_num)

/-- Full characterisation of the bounded monster-spawn search loop. -/
theorem monsterSpawnLoop_spec (D : Int) (g : Grid) (ρ : Nat → Cell) :
    ∀ fuel k,
      (∃ i, k ≤ i ∧ i < k + fuel ∧ monsterSpawnOk D g (ρ i) ∧
        monsterSpawnLoop D g ρ fuel k = ρ i ∧
        ∀ j, k ≤ j → j < i → ¬ monsterSpawnOk D g (ρ j)) ∨
      ((∀ j, k ≤ j → j < k + fuel → ¬ monsterSpawnOk D g (ρ j)) ∧
        monsterSpawnLoop D g ρ fuel k = (D / 2, D / 2)) := by
  intro fuel
  induction fuel with
  | zero =>
    intro k
    right
    exact ⟨fun j h1 h2 => absurd h2 (by omega), rfl⟩
  | succ n ih =>
    intro k
    by_cases hk : monsterSpawnOk D g (ρ k)
    · left
      refine ⟨k, le_refl k, by omega, hk, ?_, fun j h1 h2 => absurd h1 (by omega)⟩
      simp only [monsterSpawnLoop, if_pos hk]
    · rcases ih (k + 1) with ⟨i, hi1, hi2, hok, heq, hmin⟩ | ⟨hall, heq⟩
      · left
        refine ⟨i, by omega, by omega, hok, ?_, ?_⟩
        · simp only [monsterSpawnLoop, if_neg hk]
          exact heq
        · intro j h1 h2
          by_cases hj : j = k
          · rw [hj]; exact hk
          · exact hmin j (by omega) h2
      · right
        refine ⟨?_, ?_⟩
        · intro j h1 h2
          by_cases hj : j = k
          · rw [hj]; exact hk
          · exact hall j (by omega) (by omega)
        · simp only [monsterSpawnLoop, if_neg hk]
          exact heq

/-- C4: `find_monster_spawn_point` either returns, within its 100 samples,
the first sample that is a valid interior path cell whose Manhattan distances
to the spawn point and to the goal point both exceed `D/4`, or — when none of
the 100 samples qualifies — returns the grid centre `(D//2, D//2)` with no
further validation. -/
theorem C4_monster_spawn_search (D : Int) (g : Grid) (ρ : Nat → Cell)
    (hρ : ∀ n, 1 ≤ (ρ n).1 ∧ (ρ n).1 ≤ D - 2 ∧ 1 ≤ (ρ n).2 ∧
      (ρ n).2 ≤ D - 2) :
    (∃ i < 100, monsterSpawnOk D g (ρ i) ∧
      find_monster_spawn_point D g ρ = ρ i ∧
      (∀ j < i, ¬ monsterSpawnOk D g (ρ j)) ∧
      1 ≤ (ρ i).1 ∧ (ρ i).1 ≤ D - 2 ∧ 1 ≤ (ρ i).2 ∧ (ρ i).2 ≤ D - 2 ∧
      g (ρ i) = 0 ∧
      (D : ℚ) / 4 < ((mdist (ρ i) (find_spawn_point D g) : Int) : ℚ) ∧
      (D : ℚ) / 4 < ((mdist (ρ i) (find_goal_point D g) : Int) : ℚ)) ∨
    ((∀ j < 100, ¬ monsterSpawnOk D g (ρ j)) ∧
      find_monster_spawn_point D g ρ = (D / 2, D / 2)) := by
  rcases monsterSpawnLoop_spec D g ρ 100 0 with
    ⟨i, _, hi2, hok, heq, hmin⟩ | ⟨hall, heq⟩
  · left
    obtain ⟨hval, hd1, hd2⟩ := hok
    exact ⟨i, by omega, ⟨hval, hd1, hd2⟩, heq,
      fun j hj => hmin j (by omega) hj,
      (hρ i).1, (hρ i).2.1, (hρ i).2.2.1, (hρ i).2.2.2,
      hval.2.2.2.2, hd1, hd2⟩
  · right
    exact ⟨fun j hj => hall j (by omega) hj, heq⟩

/-- Witness for C4 on a 5×5 grid with a constant sample stream. -/
theorem C4_monster_spawn_search_witness :
    (∃ i < 100, monsterSpawnOk 5 gridW (rho0 i) ∧
      find_monster_spawn_point 5 gridW rho0 = rho0 i ∧
      (∀ j < i, ¬ monsterSpawnOk 5 gridW (rho0 j)) ∧
      1 ≤ (rho0 i).1 ∧ (rho0 i).1 ≤ 5 - 2 ∧ 1 ≤ (rho0 i).2 ∧
        (rho0 i).2 ≤ 5 - 2 ∧
      gridW (rho0 i) = 0 ∧
      ((5 : Int) : ℚ) / 4 < ((mdist (rho0 i) (find_spawn_point 5 gridW) : Int) : ℚ) ∧
      ((5 : Int) : ℚ) / 4 < ((mdist (rho0 i) (find_goal_point 5 gridW) : Int) : ℚ)) ∨
    ((∀ j < 100, ¬ monsterSpawnOk 5 gridW (rho0 j)) ∧
      find_monster_spawn_point 5 gridW rho0 = (5 / 2, 5 / 2)) :=
  C4_monster_spawn_search 5 gridW rho0 (by intro n; norm_num [rho0])

theorem appendFace_vertices (m : MeshData) (f : Face) :
    (appendFace m f).vertices = m.vertices ++ f.verts := rfl

theorem foldl_appendFace_vertices (faces : List Face) :
    ∀ m : MeshData,
      ((faces.foldl appendFace m).vertices)
        = m.vertices ++ faces.flatMap Face.verts := by
  induction faces with
  | nil => intro m; simp
  | cons f fs ih =>
    intro m
    simp only [List.foldl_cons, List.flatMap_cons, ih, appendFace_vertices]
    rw [List.append_assoc]

/-- The vertex list of the built mesh is the concatenation, in scan order, of
the vertices of the per-cell quads. -/
theorem create_mesh_vertices (P : MeshCfg) (D : Int) (g : Grid) :
    (create_mesh_from_grid P D g).vertices
      = (gridScan D).flatMap
          (fun c => (cellFaces P D g c.1 c.2).flatMap Face.verts) := by
  unfold create_mesh_from_grid
  have haux : ∀ (l : List (Int × Int)) (m : MeshData),
      ((l.foldl (fun m c => (cellFaces P D g c.1 c.2).foldl appendFace m)
          m).vertices)
        = m.vertices
          ++ l.flatMap (fun c => (cellFaces P D g c.1 c.2).flatMap Face.verts) := by
    intro l
    induction l with
    | nil => intro m; simp
    | cons c cs ih =>
      intro m
      simp only [List.foldl_cons, List.flatMap_cons, ih,
        foldl_appendFace_vertices]
      rw [List.append_assoc]
  rw [haux]
  rfl

/-- C5: the mesh builder appends the cell quads in scan order, and per cell
and side it emits a vertical side quad iff the cell is a wall and the
neighbour on that side is a path cell or the cell lies on that edge of the
grid; consequently a wall cell off the boundary whose four orthogonal
neighbours are walls contributes exactly one (top) quad and no side quads. -/
theorem C5_mesh_side_faces (P : MeshCfg) (D : Int) (g : Grid) (x z : Int)
    (hx0 : 0 ≤ x) (hx1 : x < D) (hz0 : 0 ≤ z) (hz1 : z < D) :
    ((create_mesh_from_grid P D g).vertices
      = (gridScan D).flatMap
          (fun c => (cellFaces P D g c.1 c.2).flatMap Face.verts)) ∧
    (northFaces P D g x z ≠ []
      ↔ g (x, z) = 1 ∧ (g (x, z + 1) = 0 ∨ z = D - 1)) ∧
    (southFaces P D g x z ≠ []
      ↔ g (x, z) = 1 ∧ (g (x, z - 1) = 0 ∨ z = 0)) ∧
    (eastFaces P D g x z ≠ []
      ↔ g (x, z) = 1 ∧ (g (x + 1, z) = 0 ∨ x = D - 1)) ∧
    (westFaces P D g x z ≠ []
      ↔ g (x, z) = 1 ∧ (g (x - 1, z) = 0 ∨ x = 0)) ∧
    (g (x, z) = 1 → 1 ≤ x → x ≤ D - 2 → 1 ≤ z → z ≤ D - 2 →
      g (x, z + 1) = 1 → g (x, z - 1) = 1 → g (x + 1, z) = 1 →
      g (x - 1, z) = 1 →
      cellFaces P D g x z = [topFace P D g x z]) := by
  have hN : northFaces P D g x z ≠ []
      ↔ (z = D - 1 ∨ (z + 1 < D ∧ g (x, z + 1) = 0)) ∧ g (x, z) = 1 := by
    unfold northFaces
    split_ifs with h1 h2
    · constructor
      · exact fun _ => ⟨h1, h2⟩
      · intro _
        simp
    · constructor
      · intro h; exact absurd rfl h
      · rintro ⟨_, hw⟩; exact absurd hw h2
    · constructor
      · intro h; exact absurd rfl h
      · rintro ⟨hc, _⟩; exact absurd hc h1
  have hS : southFaces P D g x z ≠ []
      ↔ (z = 0 ∨ (0 ≤ z - 1 ∧ g (x, z - 1) = 0)) ∧ g (x, z) = 1 := by
    unfold southFaces
    split_ifs with h1 h2
    · constructor
      · exact fun _ => ⟨h1, h2⟩
      · intro _
        simp
    · constructor
      · intro h; exact absurd rfl h
      · rintro ⟨_, hw⟩; exact absurd hw h2
    · constructor
      · intro h; exact absurd rfl h
      · rintro ⟨hc, _⟩; exact absurd hc h1
  have hE : eastFaces P D g x z ≠ []
      ↔ (x = D - 1 ∨ (x + 1 < D ∧ g (x + 1, z) = 0)) ∧ g (x, z) = 1 := by
    unfold eastFaces
    split_ifs with h1 h2
    · constructor
      · exact fun _ => ⟨h1, h2⟩
      · intro _
        simp
    · constructor
      · intro h; exact absurd rfl h
      · rintro ⟨_, hw⟩; exact absurd hw h2
    · constructor
      · intro h; exact absurd rfl h
      · rintro ⟨hc, _⟩; exact absurd hc h1
  have hW : westFaces P D g x z ≠ []
      ↔ (x = 0 ∨ (0 ≤ x - 1 ∧ g (x - 1, z) = 0)) ∧ g (x, z) = 1 := by
    unfold westFaces
    split_ifs with h1 h2
    · constructor
      · exact fun _ => ⟨h1, h2⟩
      · intro _
        simp
    · constructor
      · intro h; exact absurd rfl h
      · rintro ⟨_, hw⟩; exact absurd hw h2
    · constructor
      · intro h; exact absurd rfl h
      · rintro ⟨hc, _⟩; exact absurd hc h1
  refine ⟨create_mesh_vertices P D g, ?_, ?_, ?_, ?_, ?_⟩
  · rw [hN]
    constructor
    · rintro ⟨h1 | ⟨_, h2⟩, hw⟩
      · exact ⟨hw, Or.inr h1⟩
      · exact ⟨hw, Or.inl h2⟩
    · rintro ⟨hw, h1 | h1⟩
      · by_cases hz : z = D - 1
        · exact ⟨Or.inl hz, hw⟩
        · exact ⟨Or.inr ⟨by omega, h1⟩, hw⟩
      · exact ⟨Or.inl h1, hw⟩
  · rw [hS]
    constructor
    · rintro ⟨h1 | ⟨_, h2⟩, hw⟩
      · exact ⟨hw, Or.inr h1⟩
      · exact ⟨hw, Or.inl h2⟩
    · rintro ⟨hw, h1 | h1⟩
      · by_cases hz : z = 0
        · exact ⟨Or.inl hz, hw⟩
        · exact ⟨Or.inr ⟨by omega, h1⟩, hw⟩
      · exact ⟨Or.inl h1, hw⟩
  · rw [hE]
    constructor
    · rintro ⟨h1 | ⟨_, h2⟩, hw⟩
      · exact ⟨hw, Or.inr h1⟩
      · exact ⟨hw, Or.inl h2⟩
    · rintro ⟨hw, h1 | h1⟩
      · by_cases hx : x = D - 1
        · exact ⟨Or.inl hx, hw⟩
        · exact ⟨Or.inr ⟨by omega, h1⟩, hw⟩
      · exact ⟨Or.inl h1, hw⟩
  · rw [hW]
    constructor
    · rintro ⟨h1 | ⟨_, h2⟩, hw⟩
      · exact ⟨hw, Or.inr h1⟩
      · exact ⟨hw, Or.inl h2⟩
    · rintro ⟨hw, h1 | h1⟩
      · by_cases hx : x = 0
        · exact ⟨Or.inl hx, hw⟩
        · exact ⟨Or.inr ⟨by omega, h1⟩, hw⟩
      · exact ⟨Or.inl h1, hw⟩
  · intro hw hxa hxb hza hzb hn hs he hwe
    have e1 : northFaces P D g x z = [] := by
      unfold northFaces
      rw [if_neg]
      rintro (h | ⟨_, h0⟩)
      · omega
      · rw [hn] at h0; exact absurd h0 (by omega)
    have e2 : southFaces P D g x z = [] := by
      unfold southFaces
      rw [if_neg]
      rintro (h | ⟨_, h0⟩)
      · omega
      · rw [hs] at h0; exact absurd h0 (by omega)
    have e3 : eastFaces P D g x z = [] := by
      unfold eastFaces
      rw [if_neg]
      rintro (h | ⟨_, h0⟩)
      · omega
      · rw [he] at h0; exact absurd h0 (by omega)
    have e4 : westFaces P D g x z = [] := by
      unfold westFaces
      rw [if_neg]
      rintro (h | ⟨_, h0⟩)
      · omega
      · rw [hwe] at h0; exact absurd h0 (by omega)
    unfold cellFaces
    rw [e1, e2, e3, e4]
    rfl

/-- Witness for C5 on the all-walls 3×3 grid at the interior cell (1, 1). -/
theorem C5_mesh_side_faces_witness :
    ((create_mesh_from_grid meshCfgW 3 initGrid).vertices
      = (gridScan 3).flatMap
          (fun c => (cellFaces meshCfgW 3 initGrid c.1 c.2).flatMap Face.verts)) ∧
    (northFaces meshCfgW 3 initGrid 1 1 ≠ []
      ↔ initGrid (1, 1) = 1 ∧ (initGrid (1, 1 + 1) = 0 ∨ (1 : Int) = 3 - 1)) ∧
    (southFaces meshCfgW 3 initGrid 1 1 ≠ []
      ↔ initGrid (1, 1) = 1 ∧ (initGrid (1, 1 - 1) = 0 ∨ (1 : Int) = 0)) ∧
    (eastFaces meshCfgW 3 initGrid 1 1 ≠ []
      ↔ initGrid (1, 1) = 1 ∧ (initGrid (1 + 1, 1) = 0 ∨ (1 : Int) = 3 - 1)) ∧
    (westFaces meshCfgW 3 initGrid 1 1 ≠ []
      ↔ initGrid (1, 1) = 1 ∧ (initGrid (1 - 1, 1) = 0 ∨ (1 : Int) = 0)) ∧
    (initGrid (1, 1) = 1 → 1 ≤ (1 : Int) → (1 : Int) ≤ 3 - 2 →
      1 ≤ (1 : Int) → (1 : Int) ≤ 3 - 2 →
      initGrid (1, 1 + 1) = 1 → initGrid (1, 1 - 1) = 1 →
      initGrid (1 + 1, 1) = 1 → initGrid (1 - 1, 1) = 1 →
      cellFaces meshCfgW 3 initGrid 1 1 = [topFace meshCfgW 3 initGrid 1 1]) :=
  C5_mesh_side_faces meshCfgW 3 initGrid 1 1 (by norm_num) (by norm_num)
    (by norm_num) (by norm_num)

/-- C8: player health is decremented at most once per invulnerability window.
A `take_damage` call while the invulnerability timer has not elapsed leaves
health unchanged; a successful non-fatal decrement lowers health by the
amount and arms the invulnerability timer with the configured duration; a
tick shorter than the remaining window keeps invulnerability; and in the
concrete scenario of the claim (health 3, window 1 s, two 1-damage hits
0.5 s apart) health ends at 2, not 1. -/
theorem C8_invulnerability_window (cfg : PlayerCfg) (p : PlayerM)
    (amount : Int) (dt : ℚ) :
    (p.is_invulnerable = true →
      (take_damage cfg p amount).1.current_health = p.current_health) ∧
    (p.is_invulnerable = false → 0 < p.current_health - amount →
      (take_damage cfg p amount).1.current_health
          = p.current_health - amount ∧
        (take_damage cfg p amount).1.is_invulnerable = true ∧
        (take_damage cfg p amount).1.invulnerability_timer
          = cfg.invulnerabilityTime) ∧
    (p.is_invulnerable = true → 0 < p.invulnerability_timer - dt →
      (player_update p dt).is_invulnerable = true ∧
        (player_update p dt).invulnerability_timer
          = p.invulnerability_timer - dt) ∧
    (take_damage cfgPW
        (player_update (take_damage cfgPW playerW 1).1 (1 / 2)) 1).1.current_health
      = 2 := by
  refine ⟨?_, ?_, ?_, ?_⟩
  · intro h
    simp [take_damage, h]
  · intro h hh
    have hno : ¬(p.current_health - amount ≤ 0) := by omega
    simp [take_damage, h, hno]
  · intro h ht
    have hno : ¬(p.invulnerability_timer - dt ≤ 0) := not_le.mpr ht
    simp [player_update, h, hno]
  · norm_num [take_damage, player_update, playerW, cfgPW]

/-- Witness for C8: a hit during invulnerability leaves health at 2, a fresh
hit on a healthy player decrements and arms the window, and the two-hit
scenario ends at health 2. -/
theorem C8_invulnerability_window_witness :
    (take_damage cfgPW playerInv 1).1.current_health
        = playerInv.current_health ∧
    ((take_damage cfgPW playerW 1).1.current_health
        = playerW.current_health - 1 ∧
      (take_damage cfgPW playerW 1).1.is_invulnerable = true ∧
      (take_damage cfgPW playerW 1).1.invulnerability_timer
        = cfgPW.invulnerabilityTime) ∧
    (take_damage cfgPW
        (player_update (take_damage cfgPW playerW 1).1 (1 / 2)) 1).1.current_health
      = 2 :=
  ⟨(C8_invulnerability_window cfgPW playerInv 1 (1 / 2)).1 rfl,
    (C8_invulnerability_window cfgPW playerW 1 (1 / 2)).2.1 rfl
      (by norm_num [playerW]),
    (C8_invulnerability_window cfgPW playerW 1 (1 / 2)).2.2.2⟩

/-- C6 (amended): during a windup tick the timer decreases by `dt`; while it
stays positive the monster does not move, does not start a new attack, keeps
its cooldown and stored target, spawns nothing, and turns to face the
current player position when the player is available (the stored target is
only used for firing, the facing follows the live player); on the tick where
the timer reaches ≤ 0 exactly one projectile is spawned from just in front of
the monster toward the target stored at windup start (not re-aimed at the
current player position), the windup ends, and the cooldown timer is set to
the configured attack cooldown. -/
theorem C6_windup_tick (cfg : MonsterCfg) (normF : V3 → V3) (sinF : ℚ → ℚ)
    (player : Option V3) (dt : ℚ) (m : MonsterM) (t0 : V3)
    (hw : m.is_winding_up_attack = true)
    (ht : m.target_for_attack = some t0) :
    ((monster_update cfg normF sinF .PLAYING player dt m).1.attack_windup_timer
        = m.attack_windup_timer - dt) ∧
    (0 < m.attack_windup_timer - dt →
      (monster_update cfg normF sinF .PLAYING player dt m).1.position
          = m.position ∧
        (monster_update cfg normF sinF .PLAYING player dt m).1.is_winding_up_attack
          = true ∧
        (monster_update cfg normF sinF .PLAYING player dt m).1.attack_cooldown_timer
          = m.attack_cooldown_timer ∧
        (monster_update cfg normF sinF .PLAYING player dt m).1.target_for_attack
          = m.target_for_attack ∧
        (monster_update cfg normF sinF .PLAYING player dt m).2 = [] ∧
        (monster_update cfg normF sinF .PLAYING player dt m).1.forward
          = (match player with
             | some p => normF (vsub p m.position)
             | none => m.forward)) ∧
    (m.attack_windup_timer - dt ≤ 0 →
      (monster_update cfg normF sinF .PLAYING player dt m).2
          = [projectile_init cfg normF
              (vadd m.position (vscale (cfg.scaleX / 2 + 1 / 10) m.forward))
              (normF (vsub t0 m.position))] ∧
        (monster_update cfg normF sinF .PLAYING player dt m).1.is_winding_up_attack
          = false ∧
        (monster_update cfg normF sinF .PLAYING player dt m).1.attack_cooldown_timer
          = cfg.attackCooldown ∧
        (monster_update cfg normF sinF .PLAYING player dt m).1.target_for_attack
          = none) := by
  by_cases hle : m.attack_windup_timer - dt ≤ 0
  · refine ⟨?_, fun h0 => absurd hle (not_le.mpr h0), fun _ => ?_⟩
    · cases player <;> simp [monster_update, hw, hle, execute_attack, ht]
    · cases player <;> simp [monster_update, hw, hle, execute_attack, ht]
  · refine ⟨?_, fun _ => ?_, fun h0 => absurd h0 hle⟩
    · cases player <;> simp [monster_update, hw, hle]
    · cases player <;> simp [monster_update, hw, hle]

/-- Witness for C6: the fire tick of a monster whose windup expires spawns
exactly one projectile toward the stored target and re-arms the cooldown. -/
theorem C6_windup_tick_witness :
    ((monster_update cfgMW idV zeroSin .PLAYING none 2 monsterWindup).1.attack_windup_timer
        = monsterWindup.attack_windup_timer - 2) ∧
    ((monster_update cfgMW idV zeroSin .PLAYING none 2 monsterWindup).2
        = [projectile_init cfgMW idV
            (vadd monsterWindup.position
              (vscale (cfgMW.scaleX / 2 + 1 / 10) monsterWindup.forward))
            (idV (vsub ⟨1, 0, 0⟩ monsterWindup.position))] ∧
      (monster_update cfgMW idV zeroSin .PLAYING none 2 monsterWindup).1.is_winding_up_attack
        = false ∧
      (monster_update cfgMW idV zeroSin .PLAYING none 2 monsterWindup).1.attack_cooldown_timer
        = cfgMW.attackCooldown ∧
      (monster_update cfgMW idV zeroSin .PLAYING none 2 monsterWindup).1.target_for_attack
        = none) :=
  ⟨(C6_windup_tick cfgMW idV zeroSin none 2 monsterWindup ⟨1, 0, 0⟩ rfl rfl).1,
    (C6_windup_tick cfgMW idV zeroSin none 2 monsterWindup ⟨1, 0, 0⟩ rfl rfl).2.2
      (by norm_num [monsterWindup, monsterBase])⟩

/-- C6 counterexample: during a windup tick with time remaining, the monster
turns to face the current player position rather than the stored windup
target. Here the stored target direction from the monster is (1,0,0) but the
facing of the monster after the tick is (0,0,2), the direction to the live
player. -/
theorem C6_windup_tick_counterexample :
    monsterWindup.is_winding_up_attack = true ∧
    monsterWindup.target_for_attack = some ⟨1, 0, 0⟩ ∧
    0 < monsterWindup.attack_windup_timer - (1 / 2 : ℚ) ∧
    (monster_update cfgMW idV zeroSin .PLAYING (some ⟨0, 0, 2⟩) (1 / 2)
        monsterWindup).1.forward = ⟨0, 0, 2⟩ ∧
    (monster_update cfgMW idV zeroSin .PLAYING (some ⟨0, 0, 2⟩) (1 / 2)
        monsterWindup).1.forward
      ≠ idV (vsub ⟨1, 0, 0⟩ monsterWindup.position) := by
  refine ⟨rfl, rfl, by norm_num [monsterWindup, monsterBase], ?_, ?_⟩
  · norm_num [monster_update, monsterWindup, monsterBase, idV, vsub]
  · norm_num [monster_update, monsterWindup, monsterBase, idV, vsub]

/-- C7 (amended): on a tick where the monster is not winding up, the player
is available and within vision range, and the decremented cooldown is ≤ 0,
the monster enters windup with the timer set to the configured windup
duration and the attack target captured as the current player position,
spawning nothing on that tick; when `_start_attack_windup` runs with the
player unavailable, the captured target is the world-origin-relative point
`forward * 10` (not a point offset from the monster position). -/
theorem C7_windup_transition (cfg : MonsterCfg) (normF : V3 → V3)
    (sinF : ℚ → ℚ) (p : V3) (dt : ℚ) (m : MonsterM)
    (hw : m.is_winding_up_attack = false)
    (hrange : dist2 m.position p < cfg.visionRange ^ 2)
    (hcd : m.attack_cooldown_timer - dt ≤ 0) :
    ((monster_update cfg normF sinF .PLAYING (some p) dt m).1.is_winding_up_attack
        = true ∧
      (monster_update cfg normF sinF .PLAYING (some p) dt m).1.attack_windup_timer
        = cfg.windupTime ∧
      (monster_update cfg normF sinF .PLAYING (some p) dt m).1.target_for_attack
        = some p ∧
      (monster_update cfg normF sinF .PLAYING (some p) dt m).2 = []) ∧
    (∀ m' : MonsterM,
      (start_attack_windup cfg none m').target_for_attack
        = some (vscale 10 m'.forward)) := by
  constructor
  · simp [monster_update, hw, hrange, hcd, start_attack_windup]
  · intro m'
    simp [start_attack_windup]

/-- Witness for C7: a resting monster at the origin with an in-range player
enters windup targeting the player position. -/
theorem C7_windup_transition_witness :
    ((monster_update cfgMW idV zeroSin .PLAYING (some ⟨1, 0, 0⟩) (1 / 10)
          monsterBase).1.is_winding_up_attack = true ∧
      (monster_update cfgMW idV zeroSin .PLAYING (some ⟨1, 0, 0⟩) (1 / 10)
          monsterBase).1.attack_windup_timer = cfgMW.windupTime ∧
      (monster_update cfgMW idV zeroSin .PLAYING (some ⟨1, 0, 0⟩) (1 / 10)
          monsterBase).1.target_for_attack = some ⟨1, 0, 0⟩ ∧
      (monster_update cfgMW idV zeroSin .PLAYING (some ⟨1, 0, 0⟩) (1 / 10)
          monsterBase).2 = []) ∧
    (∀ m' : MonsterM,
      (start_attack_windup cfgMW none m').target_for_attack
        = some (vscale 10 m'.forward)) :=
  C7_windup_transition cfgMW idV zeroSin ⟨1, 0, 0⟩ (1 / 10) monsterBase rfl
    (by norm_num [dist2, monsterBase, cfgMW])
    (by norm_num [monsterBase])

/-- C7 counterexample: with the player unavailable at capture time, the
captured target `forward * 10` is not a point along the forward
direction from the monster position — for a monster at (5,0,5) facing +x,
the captured target is (10,0,0), while every point offset from the monster
position along its forward direction has z-coordinate 5. -/
theorem C7_windup_transition_counterexample :
    (start_attack_windup cfgMW none monsterOff).target_for_attack
        = some ⟨10, 0, 0⟩ ∧
    ¬ ∃ t : ℚ, (start_attack_windup cfgMW none monsterOff).target_for_attack
        = some (vadd monsterOff.position (vscale t monsterOff.forward)) := by
  constructor
  · norm_num [start_attack_windup, monsterOff, monsterBase, vscale]
  · rintro ⟨t, ht⟩
    simp [start_attack_windup, monsterOff, monsterBase, vscale, vadd,
      V3.mk.injEq] at ht

/-- C2 (amended): the transitions into Playing that run through `start_game`
— Menu → Playing via the start button, and Win/Lose → Playing via the restart
button, which simply calls `start_game` — first regenerate the maze (the
generation counter increments and the stored maze is the freshly generated
grid) and re-derive the three spawn points from that new grid; the
Paused → Playing resume transition (resume button or escape key), by
contrast, re-enters Playing without regenerating: counter, maze and spawn
points are unchanged. -/
theorem C2_enter_playing_regeneration (D maxHealth : Int)
    (env : Nat → GenEnv) (s : GameSt) :
    ((start_game D maxHealth env s).current_state = GState.PLAYING ∧
      (start_game D maxHealth env s).gen_count = s.gen_count + 1 ∧
      (start_game D maxHealth env s).maze
        = some (generate_random_maze D (env s.gen_count).shuffles
            (env s.gen_count).startA (env s.gen_count).startB) ∧
      (start_game D maxHealth env s).player_spawn
        = some (find_spawn_point D
            (generate_random_maze D (env s.gen_count).shuffles
              (env s.gen_count).startA (env s.gen_count).startB)) ∧
      (start_game D maxHealth env s).goal_spawn
        = some (find_goal_point D
            (generate_random_maze D (env s.gen_count).shuffles
              (env s.gen_count).startA (env s.gen_count).startB)) ∧
      (start_game D maxHealth env s).monster_spawn
        = some (find_monster_spawn_point D
            (generate_random_maze D (env s.gen_count).shuffles
              (env s.gen_count).startA (env s.gen_count).startB)
            (env s.gen_count).monsterSamples)) ∧
    (step D maxHealth env .restartClick s = start_game D maxHealth env s) ∧
    (s.current_state = GState.PAUSED →
      (step D maxHealth env .resumeClick s).current_state = GState.PLAYING ∧
      (step D maxHealth env .resumeClick s).gen_count = s.gen_count ∧
      (step D maxHealth env .resumeClick s).maze = s.maze ∧
      (step D maxHealth env .resumeClick s).player_spawn = s.player_spawn ∧
      (step D maxHealth env .resumeClick s).goal_spawn = s.goal_spawn ∧
      (step D maxHealth env .resumeClick s).monster_spawn = s.monster_spawn ∧
      (handle_escape s).current_state = GState.PLAYING ∧
      (handle_escape s).gen_count = s.gen_count ∧
      (handle_escape s).maze = s.maze) := by
  refine ⟨?_, rfl, ?_⟩
  · simp only [start_game, set_game_state]
    split_ifs with h <;> simp [h]
  · intro hs
    have hne : GState.PAUSED ≠ GState.PLAYING := by decide
    constructor
    · simp [step, set_game_state, hs, hne]
    refine ⟨?_, ?_, ?_, ?_, ?_, ?_, ?_, ?_⟩ <;>
      simp [step, handle_escape, set_game_state, hs, hne]

/-- Witness for C2 against a concrete reachable paused state of a 3×3 game. -/
theorem C2_enter_playing_regeneration_witness :
    (step 3 3 envW .resumeClick
        (step 3 3 envW .escapeKey (step 3 3 envW .startClick initGame))).current_state
      = GState.PLAYING ∧
    (step 3 3 envW .resumeClick
        (step 3 3 envW .escapeKey (step 3 3 envW .startClick initGame))).gen_count
      = (step 3 3 envW .escapeKey (step 3 3 envW .startClick initGame)).gen_count ∧
    (step 3 3 envW .resumeClick
        (step 3 3 envW .escapeKey (step 3 3 envW .startClick initGame))).maze
      = (step 3 3 envW .escapeKey (step 3 3 envW .startClick initGame)).maze ∧
    (step 3 3 envW .resumeClick
        (step 3 3 envW .escapeKey (step 3 3 envW .startClick initGame))).player_spawn
      = (step 3 3 envW .escapeKey (step 3 3 envW .startClick initGame)).player_spawn ∧
    (step 3 3 envW .resumeClick
        (step 3 3 envW .escapeKey (step 3 3 envW .startClick initGame))).goal_spawn
      = (step 3 3 envW .escapeKey (step 3 3 envW .startClick initGame)).goal_spawn ∧
    (step 3 3 envW .resumeClick
        (step 3 3 envW .escapeKey (step 3 3 envW .startClick initGame))).monster_spawn
      = (step 3 3 envW .escapeKey (step 3 3 envW .startClick initGame)).monster_spawn ∧
    (handle_escape
        (step 3 3 envW .escapeKey (step 3 3 envW .startClick initGame))).current_state
      = GState.PLAYING ∧
    (handle_escape
        (step 3 3 envW .escapeKey (step 3 3 envW .startClick initGame))).gen_count
      = (step 3 3 envW .escapeKey (step 3 3 envW .startClick initGame)).gen_count ∧
    (handle_escape
        (step 3 3 envW .escapeKey (step 3 3 envW .startClick initGame))).maze
      = (step 3 3 envW .escapeKey (step 3 3 envW .startClick initGame)).maze :=
  (C2_enter_playing_regeneration 3 3 envW
    (step 3 3 envW .escapeKey (step 3 3 envW .startClick initGame))).2.2 rfl

/-- C2 counterexample: the claim that every transition entering Playing first
regenerates the maze fails on the resume path. Against the reachable trace
menu → start → escape (paused), the resume click enters Playing from a
non-Playing state while the generation counter stays at 1 instead of
incrementing. -/
theorem C2_enter_playing_regeneration_counterexample :
    ¬ (∀ (e : GEvent) (s : GameSt),
        (step 3 3 envW e s).current_state = GState.PLAYING →
        s.current_state ≠ GState.PLAYING →
        (step 3 3 envW e s).gen_count = s.gen_count + 1) := by
  intro hclaim
  have h := hclaim .resumeClick
    (step 3 3 envW .escapeKey (step 3 3 envW .startClick initGame))
    rfl (by decide)
  have h1 : (step 3 3 envW .resumeClick
      (step 3 3 envW .escapeKey (step 3 3 envW .startClick initGame))).gen_count
      = 1 := rfl
  have h2 : (step 3 3 envW .escapeKey
      (step 3 3 envW .startClick initGame)).gen_count = 1 := rfl
  rw [h1, h2] at h
  omega

end Gogogo
